import Mathlib

/-!
# Verification of the codedocent analysis-and-serving engine

A shallow embedding, in Lean 4, of the core of the `codedocent` repository:
the quality scorer (`codedocent/quality.py`), the analysis cache and
single-node / batch AI analysis (`codedocent/analyzer.py`), the source editor
(`codedocent/editor.py`), and the interactive server's request handling
(`codedocent/server.py`).  Python functions are translated into executable
Lean definitions; file I/O is represented by explicit read-outcome values and
content-passing state; calls into external libraries (the language model, the
`radon` complexity analyzer, `tree-sitter`) are represented by explicit oracle
inputs.  Theorems about the spec's claims follow the definitions.
-/

namespace Codedocent

/-! ## Data model (codedocent/parser.py, class CodeNode) -/

/-- The `node_type` variant tag of a CodeNode
(`'directory' | 'file' | 'class' | 'function' | 'method'`). -/
inductive NodeType where
  | directory
  | file
  | «class»
  | function
  | method
deriving DecidableEq, Repr

/-- The string value of a node type, as used when Python formats
`node.node_type` into messages and id keys. -/
def NodeType.str : NodeType → String
  | .directory => "directory"
  | .file => "file"
  | .«class» => "class"
  | .function => "function"
  | .method => "method"

/-- Quality rank, one of the strings `'clean' | 'complex' | 'warning'`. -/
inductive Quality where
  | clean
  | «complex»
  | warning
deriving DecidableEq, Repr

/-- The severity order used by `quality.py` (`_order` dicts):
`warning` (2) > `complex` (1) > `clean` (0). -/
def Quality.sev : Quality → Nat
  | .clean => 0
  | .«complex» => 1
  | .warning => 2

/-- Severity of an optional quality.  `quality.py` reads unscored children via
`child.quality or "clean"` and `_order.get(own_quality, 0)`, so a missing
quality counts as severity 0. -/
def sevOpt : Option Quality → Nat
  | none => 0
  | some q => q.sev

/-- Model of `CodeNode` from `codedocent/parser.py`.  `children` makes this a nested
inductive (an ownership tree). -/
structure CodeNode where
  name : String
  node_type : NodeType
  language : Option String := none
  filepath : Option String := none
  start_line : Nat := 0
  end_line : Nat := 0
  source : String := ""
  children : List CodeNode := []
  imports : List String := []
  line_count : Nat := 0
  summary : Option String := none
  pseudocode : Option String := none
  quality : Option Quality := none
  warnings : Option (List String) := none
  node_id : Option String := none

/-- A blank node, used as the base of record updates when constructing
concrete example nodes. -/
def blankNode : CodeNode :=
  CodeNode.mk "" .function none none 0 0 "" [] [] 0 none none none none none

/-! ## Quality scoring (codedocent/quality.py) -/

/-- Model of `_worst_quality(a, b)`: the worse of two quality labels under the
severity order. -/
def _worst_quality (a b : Quality) : Quality :=
  if b.sev ≤ a.sev then a else b

/-- Model of `_score_quality(node)`.  The two concrete scorers (`_score_radon`,
`_score_param_count`) call the external `radon` and `tree-sitter` libraries,
so their results are passed in as the oracle list `scorers` (one
`(quality, warning)` pair per scorer, in the source's fixed order).  For
directory nodes the function returns `(None, None)` before consulting any
scorer. -/
def _score_quality (scorers : List (Quality × Option String))
    (node : CodeNode) : Option Quality × Option (List String) :=
  if node.node_type = .directory then
    (none, none)
  else
    let step := fun (acc : Quality × List String) (r : Quality × Option String) =>
      let q := _worst_quality acc.1 r.1
      let ws := match r.2 with
        | some w => acc.2 ++ [w]
        | none => acc.2
      (q, ws)
    let res := scorers.foldl step (Quality.clean, [])
    (some res.1, if res.2 = [] then none else some res.2)

/-- Loop body of `_child_quality_counts`: fold one child into the
`(worst, complex_count, warning_count)` accumulator.  A child with
`quality = None` counts as `"clean"` (`child.quality or "clean"`). -/
def cqcStep (acc : Quality × Nat × Nat) (child : CodeNode) :
    Quality × Nat × Nat :=
  let cq : Quality := (child.quality).getD .clean
  let worst := if cq.sev > acc.1.sev then cq else acc.1
  let ccount := if child.quality = some .«complex» then acc.2.1 + 1 else acc.2.1
  let wcount := if child.quality = some .warning then acc.2.2 + 1 else acc.2.2
  (worst, ccount, wcount)

/-- Model of `_child_quality_counts(children)`: worst child quality (reading `None`
as `"clean"`), count of `complex` children, count of `warning` children. -/
def _child_quality_counts (children : List CodeNode) :
    Quality × Nat × Nat :=
  children.foldl cqcStep (Quality.clean, 0, 0)

/-- Model of `_build_rollup_warnings(complex_count, warning_count, singular, plural)`. -/
def _build_rollup_warnings (complex_count warning_count : Nat)
    (singular plural : String) : List String :=
  let w1 : List String :=
    if warning_count ≠ 0 then
      let lbl := if warning_count = 1 then singular else plural
      ["Contains " ++ toString warning_count ++ " high-risk " ++ lbl]
    else []
  let w2 : List String :=
    if complex_count ≠ 0 then
      let lbl := if complex_count = 1 then singular else plural
      [toString complex_count ++ " complex " ++ lbl ++ " inside"]
    else []
  w1 ++ w2

/-- Model of `_rollup_quality(node)`: roll child quality up into a file or class
node (mutates `node.quality` / `node.warnings`; modeled as returning the
updated node). -/
def _rollup_quality (node : CodeNode) : CodeNode :=
  if node.children.isEmpty then node
  else
    let own_quality : Quality := (node.quality).getD .clean
    let own_warnings : List String := (node.warnings).getD []
    let res := _child_quality_counts node.children
    let worst := res.1
    let c_count := res.2.1
    let w_count := res.2.2
    let quality' : Option Quality :=
      if worst.sev > own_quality.sev then some worst else node.quality
    let warnings' :=
      own_warnings ++ _build_rollup_warnings c_count w_count "function" "functions"
    { node with
      quality := quality'
      warnings := if warnings' = [] then none else some warnings' }

/-- The `", ".join(...)` of Python: join a list of strings with a
separator. -/
def joinSep (sep : String) : List String → String
  | [] => ""
  | [s] => s
  | s :: rest => s ++ sep ++ joinSep sep rest

/-- The summary text `_summarize_directory` synthesizes for a directory
node: `"Contains N files: a, b; M directories: c"` or `"Empty directory"`. -/
def dirSummaryText (node : CodeNode) : String :=
  let file_children := node.children.filter (fun c => c.node_type = .file)
  let dir_children := node.children.filter (fun c => c.node_type = .directory)
  let parts : List String :=
    (if ¬file_children.isEmpty then
      [toString file_children.length ++ " files: " ++
        joinSep ", " (file_children.map (·.name))]
     else []) ++
    (if ¬dir_children.isEmpty then
      [toString dir_children.length ++ " directories: " ++
        joinSep ", " (dir_children.map (·.name))]
     else [])
  if parts ≠ [] then "Contains " ++ joinSep "; " parts else "Empty directory"

/-- Model of `_summarize_directory(node)`: synthesize a directory summary and
quality/warnings from the children.  No AI is involved. -/
def _summarize_directory (node : CodeNode) : CodeNode :=
  if node.node_type ≠ .directory then node
  else
    let res := _child_quality_counts node.children
    let rollup := _build_rollup_warnings res.2.1 res.2.2 "child" "children"
    { node with
      summary := some (dirSummaryText node)
      quality := some res.1
      warnings := if rollup = [] then none else some rollup }

/-! ## UTF-8 and MD5 (hashlib.md5 / str.encode)

`assign_node_ids` and `_cache_key` hash UTF-8 encoded key strings with MD5
and use the (truncated) hex digest.  Bytes and 32-bit words are modeled as
`Nat` with explicit `% 2 ^ 32` reductions. -/

/-- UTF-8 encoding of a single code point (`str.encode()`), as a list of
byte values. -/
def utf8Char (c : Char) : List Nat :=
  let n := c.toNat
  if n < 128 then [n]
  else if n < 2048 then [192 + n / 64, 128 + n % 64]
  else if n < 65536 then
    [224 + n / 4096, 128 + (n / 64) % 64, 128 + n % 64]
  else
    [240 + n / 262144, 128 + (n / 4096) % 64, 128 + (n / 64) % 64,
      128 + n % 64]

/-- UTF-8 encoding of a string as a byte list. -/
def utf8Encode (s : List Char) : List Nat := (s.map utf8Char).flatten

/-- The word modulus of MD5 arithmetic, 2^32. -/
def M32 : Nat := 4294967296

/-- Addition modulo 2^32. -/
def add32 (a b : Nat) : Nat := (a + b) % M32

/-- Left-rotation of a 32-bit word by `s` places. -/
def rotl32 (x s : Nat) : Nat := (x % M32) * 2 ^ s % M32 + (x % M32) / 2 ^ (32 - s)

/-- Bitwise NOT on a 32-bit word. -/
def not32 (x : Nat) : Nat := 4294967295 ^^^ (x % M32)

/-- The MD5 sine-derived round constants `K[0..63]`. -/
def md5K : List Nat :=
  [0xd76aa478, 0xe8c7b756, 0x242070db, 0xc1bdceee,
   0xf57c0faf, 0x4787c62a, 0xa8304613, 0xfd469501,
   0x698098d8, 0x8b44f7af, 0xffff5bb1, 0x895cd7be,
   0x6b901122, 0xfd987193, 0xa679438e, 0x49b40821,
   0xf61e2562, 0xc040b340, 0x265e5a51, 0xe9b6c7aa,
   0xd62f105d, 0x02441453, 0xd8a1e681, 0xe7d3fbc8,
   0x21e1cde6, 0xc33707d6, 0xf4d50d87, 0x455a14ed,
   0xa9e3e905, 0xfcefa3f8, 0x676f02d9, 0x8d2a4c8a,
   0xfffa3942, 0x8771f681, 0x6d9d6122, 0xfde5380c,
   0xa4beea44, 0x4bdecfa9, 0xf6bb4b60, 0xbebfbc70,
   0x289b7ec6, 0xeaa127fa, 0xd4ef3085, 0x04881d05,
   0xd9d4d039, 0xe6db99e5, 0x1fa27cf8, 0xc4ac5665,
   0xf4292244, 0x432aff97, 0xab9423a7, 0xfc93a039,
   0x655b59c3, 0x8f0ccc92, 0xffeff47d, 0x85845dd1,
   0x6fa87e4f, 0xfe2ce6e0, 0xa3014314, 0x4e0811a1,
   0xf7537e82, 0xbd3af235, 0x2ad7d2bb, 0xeb86d391]

/-- The MD5 per-round shift amounts `s[0..63]`. -/
def md5S : List Nat :=
  [7, 12, 17, 22, 7, 12, 17, 22, 7, 12, 17, 22, 7, 12, 17, 22,
   5, 9, 14, 20, 5, 9, 14, 20, 5, 9, 14, 20, 5, 9, 14, 20,
   4, 11, 16, 23, 4, 11, 16, 23, 4, 11, 16, 23, 4, 11, 16, 23,
   6, 10, 15, 21, 6, 10, 15, 21, 6, 10, 15, 21, 6, 10, 15, 21]

/-- The MD5 round function (F, G, H or I depending on the round index). -/
def md5F (i b c d : Nat) : Nat :=
  if i < 16 then (b &&& c) ||| (not32 b &&& d)
  else if i < 32 then (d &&& b) ||| (not32 d &&& c)
  else if i < 48 then b ^^^ c ^^^ d
  else c ^^^ (b ||| not32 d)

/-- The MD5 message-word index for round `i`. -/
def md5G (i : Nat) : Nat :=
  if i < 16 then i
  else if i < 32 then (5 * i + 1) % 16
  else if i < 48 then (3 * i + 5) % 16
  else (7 * i) % 16

/-- One MD5 round applied to the state `(A, B, C, D)`. -/
def md5Round (M : List Nat) (st : Nat × Nat × Nat × Nat) (i : Nat) :
    Nat × Nat × Nat × Nat :=
  let a := st.1
  let b := st.2.1
  let c := st.2.2.1
  let d := st.2.2.2
  let f := add32 (add32 (add32 a (md5F i b c d)) (md5K.getD i 0))
    (M.getD (md5G i) 0)
  (d, add32 b (rotl32 f (md5S.getD i 0)), b, c)

/-- Process one 16-word block, adding the 64-round result into the state. -/
def md5ProcessBlock (st : Nat × Nat × Nat × Nat) (M : List Nat) :
    Nat × Nat × Nat × Nat :=
  let r := (List.range 64).foldl (md5Round M) st
  (add32 st.1 r.1, add32 st.2.1 r.2.1, add32 st.2.2.1 r.2.2.1,
    add32 st.2.2.2 r.2.2.2)

/-- Fold all 16-word blocks of the padded message into the state.
Padding guarantees a multiple of 16 words, so the catch-all for shorter
non-empty lists is unreachable. -/
def md5Blocks (st : Nat × Nat × Nat × Nat) : List Nat →
    Nat × Nat × Nat × Nat
  | w0 :: w1 :: w2 :: w3 :: w4 :: w5 :: w6 :: w7 ::
    w8 :: w9 :: w10 :: w11 :: w12 :: w13 :: w14 :: w15 :: rest =>
    md5Blocks (md5ProcessBlock st
      [w0, w1, w2, w3, w4, w5, w6, w7, w8, w9, w10, w11, w12, w13, w14, w15])
      rest
  | _ => st

/-- A 64-bit quantity as 8 little-endian bytes. -/
def le64 (n : Nat) : List Nat :=
  [n % 256, n / 256 % 256, n / 65536 % 256, n / 16777216 % 256,
   n / 4294967296 % 256, n / 1099511627776 % 256,
   n / 281474976710656 % 256, n / 72057594037927936 % 256]

/-- A 32-bit word as 4 little-endian bytes. -/
def le32 (n : Nat) : List Nat :=
  [n % 256, n / 256 % 256, n / 65536 % 256, n / 16777216 % 256]

/-- MD5 padding: append `0x80`, zero bytes to 56 mod 64, then the bit
length as 8 little-endian bytes. -/
def md5Pad (msg : List Nat) : List Nat :=
  msg ++ [128] ++ List.replicate ((119 - msg.length % 64) % 64) 0 ++
    le64 (msg.length * 8 % 18446744073709551616)

/-- Group a byte list into little-endian 32-bit words. -/
def wordsOfBytes : List Nat → List Nat
  | b0 :: b1 :: b2 :: b3 :: rest =>
    (b0 + 256 * b1 + 65536 * b2 + 16777216 * b3) :: wordsOfBytes rest
  | _ => []

/-- The 16-byte MD5 digest of a byte message. -/
def md5Digest (msg : List Nat) : List Nat :=
  let st := md5Blocks (0x67452301, 0xefcdab89, 0x98badcfe, 0x10325476)
    (wordsOfBytes (md5Pad msg))
  le32 st.1 ++ le32 st.2.1 ++ le32 st.2.2.1 ++ le32 st.2.2.2

/-- A hex digit character (lowercase), as in Python's `hexdigest()`. -/
def hexDigitChar (n : Nat) : Char :=
  Char.ofNat (if n < 10 then 48 + n else if n < 16 then 87 + n else 48)

/-- A byte as two hex characters. -/
def byteHex (b : Nat) : List Char := [hexDigitChar (b / 16 % 16), hexDigitChar (b % 16)]

/-- Whether a character is a lowercase hexadecimal digit. -/
def isHexDigit (c : Char) : Bool :=
  c ∈ "0123456789abcdef".data

/-- Model of `hashlib.md5(data).hexdigest()` as a character list. -/
def md5Hex (msg : List Nat) : List Char := ((md5Digest msg).map byteHex).flatten

/-- Model of `_md5(key.encode()).hexdigest()[:12]` — the 12-hex-character node id
derived from a key string (codedocent/analyzer.py, `assign_node_ids`). -/
def nodeIdOf (key : String) : String :=
  String.mk ((md5Hex (utf8Encode key.data)).take 12)

/-! ## Node id assignment (codedocent/analyzer.py, assign_node_ids) -/

/-- The recursive `_walk(node, path_parts)` of `assign_node_ids`: set
`node_id` from the MD5 of `"::".join(path_parts)` and recurse into the
children with `path_parts + [child.node_type, child.name]`. -/
def assignWalk (pathParts : List String) (node : CodeNode) : CodeNode :=
  { node with
    node_id := some (nodeIdOf (joinSep "::" pathParts))
    children := node.children.attach.map fun c =>
      assignWalk (pathParts ++ [c.1.node_type.str, c.1.name]) c.1 }
termination_by sizeOf node
decreasing_by
  have := List.sizeOf_lt_of_mem c.2
  cases node
  simp at this ⊢
  omega

/-- Model of `assign_node_ids(root)`: walk from `[root.name]`.  (The Python function
also returns the id → node lookup dict; the ids it contains are the ones
written into the tree, read off below by `preorderIds`.) -/
def assign_node_ids (root : CodeNode) : CodeNode :=
  assignWalk [root.name] root

/-- The assigned ids of a tree, in preorder (the order `_walk` visits and
inserts them into the lookup dict). -/
def preorderIds (t : CodeNode) : List (Option String) :=
  t.node_id :: (t.children.attach.map fun c => preorderIds c.1).flatten
termination_by sizeOf t
decreasing_by
  have := List.sizeOf_lt_of_mem c.2
  cases t
  simp at this ⊢
  omega

/-- The structural skeleton of a tree: the `node_type` and `name` at every
position, and nothing else.  Two trees with the same `Shape` are
"structurally identical" in the sense of the deterministic-ids guarantee. -/
inductive Shape where
  | mk (name : String) (ntype : NodeType) (children : List Shape)

/-- Name component of a shape. -/
def Shape.name : Shape → String
  | .mk n _ _ => n

/-- Node-type component of a shape. -/
def Shape.ntype : Shape → NodeType
  | .mk _ t _ => t

/-- Children of a shape. -/
def Shape.children : Shape → List Shape
  | .mk _ _ cs => cs

/-- The shape of a tree: keep `name` and `node_type`, drop all content
fields (`source`, line numbers, summaries, …). -/
def shapeOf (t : CodeNode) : Shape :=
  .mk t.name t.node_type (t.children.attach.map fun c => shapeOf c.1)
termination_by sizeOf t
decreasing_by
  have := List.sizeOf_lt_of_mem c.2
  cases t
  simp at this ⊢
  omega

/-- The ids `assign_node_ids` produces, computed from the shape alone:
node ids depend only on the structural path of types and names. -/
def idsFromShape (pathParts : List String) (s : Shape) : List (Option String) :=
  some (nodeIdOf (joinSep "::" pathParts)) ::
    (s.children.attach.map fun c =>
      idsFromShape (pathParts ++ [c.1.ntype.str, c.1.name]) c.1).flatten
termination_by sizeOf s
decreasing_by
  have h1 := List.sizeOf_lt_of_mem c.2
  cases s
  simp [Shape.children] at h1 ⊢
  omega

/-! ## JSON values and the analysis cache (codedocent/analyzer.py) -/

/-- JSON values, as produced by Python's `json.load` (numbers modeled as
integers; the cache format only uses the integer `1`). -/
inductive Json where
  | null
  | bool (b : Bool)
  | num (n : Int)
  | str (s : String)
  | arr (elems : List Json)
  | obj (fields : List (String × Json))

/-- Python `dict.get(key)` on a parsed JSON value: `None` (here `none`) when
the value is not a dict or the key is absent. -/
def Json.get (j : Json) (key : String) : Option Json :=
  match j with
  | .obj fields => (fields.find? (fun p => p.1 == key)).map (·.2)
  | _ => none

/-- Model of `isinstance(data, dict)`. -/
def Json.isObj : Json → Bool
  | .obj _ => true
  | _ => false

/-- The check `isinstance(data, dict) and data.get("version") == 1`
from `_load_cache`. -/
def Json.isVersion1Dict (j : Json) : Bool :=
  j.isObj && (match j.get "version" with
    | some (.num n) => n == 1
    | _ => false)

/-- The fresh empty cache record
`{"version": 1, "model": "", "entries": {}}`. -/
def freshCacheJson : Json :=
  .obj [("version", .num 1), ("model", .str ""), ("entries", .obj [])]

/-- The outcome of `open(path)` + `json.load(f)` in `_load_cache`:
the file is missing (`FileNotFoundError`), reading fails (`OSError`),
the content is not readable as JSON (`json.JSONDecodeError`), or a JSON
value is parsed. -/
inductive LoadOutcome where
  | missing
  | osError
  | badJson
  | parsed (j : Json)

/-- Model of `_load_cache(path)`: return the parsed value when it is a dict with
`version == 1`; on a missing file, unreadable JSON, OS error, or any other
parsed value, return the fresh empty record. -/
def _load_cache (o : LoadOutcome) : Json :=
  match o with
  | .parsed j => if j.isVersion1Dict then j else freshCacheJson
  | _ => freshCacheJson

/-- A well-formed cache record in the sense of the spec's data model:
a JSON dict with `version = 1`, a string `model`, and a dict `entries`. -/
def isWellFormedRecord (j : Json) : Bool :=
  j.isVersion1Dict &&
  (match j.get "model" with | some (.str _) => true | _ => false) &&
  (match j.get "entries" with | some (.obj _) => true | _ => false)

/-! ## Python string primitives

`editor.py` and `analyzer.py` rely on Python's `str.splitlines`,
`str.strip`, `str.rstrip` and regular-expression substitution.  These are
modeled over `List Char` (Python strings are sequences of code points). -/

/-- The characters Python's `str.splitlines` treats as line boundaries:
LF, CR, VT, FF, FS, GS, RS, NEL, LINE SEPARATOR, PARAGRAPH SEPARATOR. -/
def isLineBreak (c : Char) : Bool :=
  c == '\n' || c == '\r' || c == Char.ofNat 11 || c == Char.ofNat 12 ||
  c == Char.ofNat 28 || c == Char.ofNat 29 || c == Char.ofNat 30 ||
  c == Char.ofNat 133 || c == Char.ofNat 8232 || c == Char.ofNat 8233

/-- Model of `str.splitlines(keepends=True)`: split at every line boundary, treating
`"\r\n"` as a single boundary, keeping the terminators. -/
def splitK : List Char → List (List Char)
  | [] => []
  | c :: rest =>
    if c = '\r' then
      match rest with
      | [] => [['\r']]
      | d :: r2 =>
        if d = '\n' then ['\r', '\n'] :: splitK r2
        else ['\r'] :: splitK (d :: r2)
    else if isLineBreak c then [c] :: splitK rest
    else
      match splitK rest with
      | [] => [[c]]
      | l :: ls => (c :: l) :: ls

/-- Remove the line terminator (if any) from the end of one
`splitlines(True)` line, giving the `splitlines()` content. -/
def stripEnd (l : List Char) : List Char :=
  match l.reverse with
  | [] => []
  | c :: rest =>
    if c = '\n' then
      match rest with
      | [] => []
      | d :: rest2 => if d = '\r' then rest2.reverse else rest.reverse
    else if isLineBreak c then rest.reverse
    else l

/-- Model of `str.splitlines()` (without keepends): the line contents. -/
def pyLines (s : List Char) : List (List Char) := (splitK s).map stripEnd

/-- A line consisting of boundary-free content followed by a line
terminator (a single boundary character or CRLF) — the form of every
non-final line `splitlines(keepends=True)` produces. -/
def TermLine (l : List Char) : Prop :=
  ∃ content term, l = content ++ term ∧
    (∀ c ∈ content, isLineBreak c = false) ∧
    (term = ['\r', '\n'] ∨ ∃ b, term = [b] ∧ isLineBreak b = true)

/-- A non-empty line with no boundary characters at all — the possible
form of the final `splitlines(keepends=True)` line. -/
def ContentLine (l : List Char) : Prop :=
  l ≠ [] ∧ ∀ c ∈ l, isLineBreak c = false

/-- Python's `str.rstrip("\r\n")`: remove every trailing CR or LF. -/
def rstripRN (l : List Char) : List Char :=
  (l.reverse.dropWhile (fun c => c == '\r' || c == '\n')).reverse

/-- The characters Python's `str.strip()` (and `re`'s `\s` on `str`)
treats as whitespace: the ASCII whitespace, the C1 separators, NEL, NBSP,
and the Unicode space/line/paragraph separators that matter here. -/
def isPySpace (c : Char) : Bool :=
  c == ' ' || c == '\t' || c == '\n' || c == '\r' ||
  c == Char.ofNat 11 || c == Char.ofNat 12 ||
  c == Char.ofNat 28 || c == Char.ofNat 29 || c == Char.ofNat 30 ||
  c == Char.ofNat 31 || c == Char.ofNat 133 || c == Char.ofNat 160 ||
  c == Char.ofNat 8232 || c == Char.ofNat 8233

/-- Model of `str.strip()`: drop leading and trailing whitespace. -/
def pyStrip (s : List Char) : List Char :=
  ((s.dropWhile isPySpace).reverse.dropWhile isPySpace).reverse

/-- Match `pat` as a literal prefix of `s`, returning the remainder. -/
def dropPrefixCL : List Char → List Char → Option (List Char)
  | [], s => some s
  | _, [] => none
  | p :: ps, c :: cs => if p = c then dropPrefixCL ps cs else none

/-- Python's `str.startswith(pre)`. -/
def pyStartsWith (s pre : String) : Bool :=
  (dropPrefixCL pre.data s.data).isSome

/-! ## Source editor (codedocent/editor.py) -/

/-- Model of `text.count("\r\n")`: non-overlapping occurrences of CRLF. -/
def countCRLF : List Char → Nat
  | '\r' :: '\n' :: rest => 1 + countCRLF rest
  | _ :: rest => countCRLF rest
  | [] => 0

/-- Model of `text.count("\n")`. -/
def countLF (s : List Char) : Nat :=
  (s.filter (fun c => c == '\n')).length

/-- The dominant line-ending detection of `_read_and_validate`:
`"\r\n" if crlf_count > lf_count else "\n"`, where
`lf_count = text.count("\n") - crlf_count`. -/
def lineEnding (text : List Char) : List Char :=
  if countCRLF text > countLF text - countCRLF text then ['\r', '\n']
  else ['\n']

/-- Model of `replace_block_source(filepath, start_line, end_line, new_source)`,
modeled over the file's decoded content.  The file-existence, UTF-8 decode,
modification-time and backup steps are filesystem I/O taken to succeed in
this sequential model (no concurrent external edit); the pure logic —
range validation with its exact error strings, line-ending detection,
splitting, splicing `lines[start-1:end] = new_lines`, and the re-emission
of replacement lines with the detected ending — is kept exactly.  Returns
the new content with `lines_before` and `lines_after`. -/
def replace_block_source (content : List Char) (start_line end_line : Nat)
    (new_source : List Char) : Except String (List Char × Nat × Nat) :=
  if start_line < 1 ∨ end_line < 1 ∨ start_line > end_line then
    .error ("Invalid line range: " ++ toString start_line ++ "-" ++
      toString end_line)
  else
    let lines := splitK content
    if end_line > lines.length then
      .error ("end_line " ++ toString end_line ++ " exceeds file length (" ++
        toString lines.length ++ " lines)")
    else
      let le := lineEnding content
      let new_lines := if new_source.isEmpty then []
        else (splitK new_source).map (fun ln => rstripRN ln ++ le)
      let spliced := lines.take (start_line - 1) ++ new_lines ++
        lines.drop end_line
      .ok (spliced.flatten, end_line - start_line + 1, new_lines.length)

/-! ## Think-tag stripping and response parsing
(codedocent/analyzer.py, _strip_think_tags / _parse_ai_response) -/

/-- Match the opener `<\|?think\|?>` at the start of `s` (the variants
`<think>`, `<|think>`, `<think|>`, `<|think|>` are mutually exclusive as
literal prefixes). -/
def dropOpener (s : List Char) : Option (List Char) :=
  match dropPrefixCL "<|think|>".data s with
  | some r => some r
  | none =>
    match dropPrefixCL "<|think>".data s with
    | some r => some r
    | none =>
      match dropPrefixCL "<think|>".data s with
      | some r => some r
      | none => dropPrefixCL "<think>".data s

/-- Match the closer `<\|?/think\|?>` at the start of `s`. -/
def dropCloser (s : List Char) : Option (List Char) :=
  match dropPrefixCL "<|/think|>".data s with
  | some r => some r
  | none =>
    match dropPrefixCL "<|/think>".data s with
    | some r => some r
    | none =>
      match dropPrefixCL "</think|>".data s with
      | some r => some r
      | none => dropPrefixCL "</think>".data s

/-- Scan for the earliest closer occurrence (the non-greedy `.*?`) and
return the remainder after it. -/
def findCloserEnd : List Char → Option (List Char)
  | [] => none
  | c :: cs =>
    match dropCloser (c :: cs) with
    | some r => some r
    | none => findCloserEnd cs

/-- Model of `re.sub(r"<\|?think\|?>.*?<\|?/think\|?>", "", text, flags=DOTALL)`:
scanning left to right, a match starts at an opener and ends at the
earliest following closer; scanning resumes after the removed match.  The
fuel argument (one unit per emitted or skipped character) only bounds the
recursion; `sub1` supplies `s.length`, which the step structure never
exhausts. -/
def sub1Fuel : Nat → List Char → List Char
  | 0, s => s
  | _, [] => []
  | fuel + 1, c :: cs =>
    match dropOpener (c :: cs) with
    | some r =>
      match findCloserEnd r with
      | some r2 => sub1Fuel fuel r2
      | none => c :: sub1Fuel fuel cs
    | none => c :: sub1Fuel fuel cs

/-- First substitution of `_strip_think_tags`: remove well-formed
`<think>…</think>` pairs (including `<|think|>` variants). -/
def sub1 (s : List Char) : List Char := sub1Fuel s.length s

/-- Second substitution of `_strip_think_tags`:
`re.sub(r"<\|?think\|?>.*", "", text, flags=DOTALL)` — an unclosed opener
removes everything to the end of the string. -/
def sub2 : List Char → List Char
  | [] => []
  | c :: cs =>
    if (dropOpener (c :: cs)).isSome then [] else c :: sub2 cs

/-- Model of `_strip_think_tags(text)`: both substitutions, then `.strip()`. -/
def _strip_think_tags (s : List Char) : List Char :=
  pyStrip (sub2 (sub1 s))

/-- Split `s` at the first occurrence of the literal `pat`, returning the
text before it and the text after it (`re.search` on a pattern that starts
with a literal). -/
def splitAtSub (pat : List Char) : List Char → Option (List Char × List Char)
  | [] => match dropPrefixCL pat [] with
    | some r => some ([], r)
    | none => none
  | c :: cs =>
    match dropPrefixCL pat (c :: cs) with
    | some r => some ([], r)
    | none =>
      match splitAtSub pat cs with
      | some (b, a) => some (c :: b, a)
      | none => none

/-- Take characters until the literal `pat` matches (the non-greedy
`(.*?)(?=\nPSEUDOCODE:|$)` capture; the alternative of `$` matching just
before a trailing newline is erased by the `.strip()` the caller applies,
so the capture runs to the marker or to the end). -/
def takeUntilMarker (pat : List Char) : List Char → List Char
  | [] => []
  | c :: cs =>
    if (dropPrefixCL pat (c :: cs)).isSome then []
    else c :: takeUntilMarker pat cs

/-- Model of `_parse_ai_response(text)`: extract the `SUMMARY:` section (up to
`\nPSEUDOCODE:` or the end) and the `PSEUDOCODE:` section (to the end),
both stripped; fall back to the first non-empty line as the summary. -/
def _parse_ai_response (text : List Char) : List Char × List Char :=
  let summary : List Char :=
    match splitAtSub "SUMMARY:".data text with
    | some (_, rest) =>
      pyStrip (takeUntilMarker "\nPSEUDOCODE:".data (rest.dropWhile isPySpace))
    | none => []
  let pseudocode : List Char :=
    match splitAtSub "PSEUDOCODE:".data text with
    | some (_, rest) => pyStrip (rest.dropWhile isPySpace)
    | none => []
  let summary :=
    if summary.isEmpty then
      match pyLines (pyStrip text) with
      | [] => []
      | l :: _ => pyStrip l
    else summary
  (summary, pseudocode)

/-- The response post-processing shared by `_summarize_with_ai` and
`_summarize_with_cloud` once the raw model text is in hand: strip think
tags; if the cleaned text is empty or under 10 characters return the
`("Could not generate summary", "")` placeholder pair; otherwise parse the
sections, substituting the placeholder summary when the parsed summary is
empty or under 5 characters. -/
def postprocessResponse (raw : List Char) : List Char × List Char :=
  let cleaned := _strip_think_tags raw
  if cleaned.isEmpty || cleaned.length < 10 then
    ("Could not generate summary".data, [])
  else
    let sp := _parse_ai_response cleaned
    if sp.1.isEmpty || sp.1.length < 5 then
      ("Could not generate summary".data, sp.2)
    else sp

/-! ## Structured cache records and model identifiers
(codedocent/analyzer.py)

`_load_cache` returns raw JSON (modeled above for C2); the analysis paths
then treat it as a record with `model` and `entries` keys.  Those paths are
modeled over a structured record type. -/

/-- Model of `MIN_LINES_FOR_AI = 3`. -/
def MIN_LINES_FOR_AI : Nat := 3

/-- The keys of the `ai_config` dict the analyzer consults. -/
structure AiConfig where
  backend : String
  provider : String
  model : String

/-- Model of `_cache_model_id(model, ai_config)`: the composite
`cloud:<provider>:<model>` identifier for cloud backends, else the local
model name. -/
def _cache_model_id (model : String) (cfg : Option AiConfig) : String :=
  match cfg with
  | some c =>
    if c.backend = "cloud" then "cloud:" ++ c.provider ++ ":" ++ c.model
    else model
  | none => model

/-- The structured form of a cache record:
`{"version": 1, "model": ..., "entries": {key: {summary, pseudocode}}}`. -/
structure CacheRecord where
  version : Nat
  model : String
  entries : List (String × String × String)

/-- The fresh record `{"version": 1, "model": model_id, "entries": {}}`. -/
def freshRecord (mid : String) : CacheRecord := ⟨1, mid, []⟩

/-- The model-invalidation check appearing verbatim in both `_init_cache`
and `analyze_single_node`:
`if cache.get("model") != model_id: cache = {"version": 1, "model":
model_id, "entries": {}}`. -/
def modelCheck (c : CacheRecord) (mid : String) : CacheRecord :=
  if c.model ≠ mid then freshRecord mid else c

/-- Model of `_init_cache(root, model, ai_config)`, restricted to its cache logic:
load (the loaded record is passed in) and reset on model mismatch. -/
def _init_cache (loaded : CacheRecord) (mid : String) : CacheRecord :=
  modelCheck loaded mid

/-- Python dict lookup `entries[key]` / `key in entries` on the entries
map. -/
def entriesFind (entries : List (String × String × String)) (key : String) :
    Option (String × String) :=
  (entries.find? (fun p => p.1 == key)).map (·.2)

/-- Python dict assignment `entries[key] = value`: replace the existing
binding or append a new one (insertion order preserved). -/
def entriesInsert :
    List (String × String × String) → String → String × String →
    List (String × String × String)
  | [], k, v => [(k, v.1, v.2)]
  | e :: rest, k, v =>
    if e.1 == k then (k, v.1, v.2) :: rest else e :: entriesInsert rest k v

/-- Model of `_cache_key(node) = f"{node.filepath}::{node.name}::{md5-hex}"`.
A `None` filepath formats as the string `"None"` in the f-string. -/
def _cache_key (node : CodeNode) : String :=
  (match node.filepath with | some p => p | none => "None") ++ "::" ++
    node.name ++ "::" ++ String.mk (md5Hex (utf8Encode node.source.data))

/-! ## AI call outcomes and single-node analysis
(codedocent/analyzer.py) -/

/-- The exception classes that `_summarize_with_ai` and its transports can
raise (all are subclasses of `Exception`). -/
inductive ExcKind where
  | connectionError
  | runtimeError
  | valueError
  | osError
  | attributeError
  | typeError
deriving DecidableEq, Repr

/-- The outcome of one `_summarize_with_ai(node, ...)` call: a
`(summary, pseudocode)` pair, `None` on timeout, or a raised exception. -/
inductive AIOutcome where
  | ok (summary pseudocode : String)
  | timeout
  | exc (e : ExcKind)

/-- Ambient inputs of `analyze_single_node`: whether the `ollama` package
imported, whether `ai_config` selects the cloud backend, the current model
identifier (`_cache_model_id(model, ai_config)`), the oracle results of the
external quality scorers, and the oracle outcome of the AI call for the
node under analysis. -/
structure AnalyzeEnv where
  ollamaAvailable : Bool
  isCloud : Bool
  modelId : String
  scorers : List (Quality × Option String)
  ai : AIOutcome

/-- Model of `analyze_single_node(node, model, cache_dir, ai_config)` — the server's
lazy single-node analysis.  Returns the updated node and, when a fresh AI
result was cached, the record passed to `_save_cache`.  The source's order
of checks is kept exactly: ollama availability, scoring, the min-lines
guard, the directory branch, cache load + model check, cache hit, AI call
with its `except (ConnectionError, RuntimeError, ValueError, OSError,
AttributeError, TypeError)` handler. -/
def analyze_single_node (env : AnalyzeEnv) (loaded : CacheRecord)
    (node : CodeNode) : CodeNode × Option CacheRecord :=
  if ¬env.isCloud ∧ ¬env.ollamaAvailable then
    ({ node with summary := some "AI unavailable (ollama not installed)" },
     none)
  else
    let sq := _score_quality env.scorers node
    let node := { node with quality := sq.1, warnings := sq.2 }
    if node.line_count < MIN_LINES_FOR_AI then
      ({ node with summary := some ("Small " ++ node.node_type.str ++ " (" ++
        toString node.line_count ++ " lines)") }, none)
    else if node.node_type = .directory then
      (_summarize_directory node, none)
    else
      let cache := modelCheck loaded env.modelId
      let key := _cache_key node
      match entriesFind cache.entries key with
      | some e =>
        ({ node with summary := some e.1, pseudocode := some e.2 }, none)
      | none =>
        match env.ai with
        | .timeout => ({ node with summary := some "Summary timed out" }, none)
        | .ok s p =>
          ({ node with summary := some s, pseudocode := some p },
           some { cache with entries := entriesInsert cache.entries key (s, p) })
        | .exc _ =>
          ({ node with summary := some "Summary generation failed" }, none)

/-! ## Batch AI analysis (codedocent/analyzer.py, phases 2 and 3) -/

/-- The body of `_run_ai_batch._do_one`'s `try:` block (cache insertion on
success); a raised AI exception surfaces as `.error`. -/
def _do_one_try (ai : CodeNode → AIOutcome) (cache : CacheRecord)
    (node : CodeNode) : Except ExcKind (CodeNode × CacheRecord) :=
  match ai node with
  | .exc e => .error e
  | .timeout => .ok ({ node with summary := some "Summary timed out" }, cache)
  | .ok s p =>
    .ok ({ node with summary := some s, pseudocode := some p },
      { cache with
        entries := entriesInsert cache.entries (_cache_key node) (s, p) })

/-- Model of `_run_ai_batch._do_one(node)`: min-lines guard, cache hit, then the AI
call whose `except Exception` handler converts ANY raised exception —
`ConnectionError` included — into the `"Summary generation failed"`
summary.  The function therefore never propagates an exception. -/
def _do_one (ai : CodeNode → AIOutcome) (cache : CacheRecord)
    (node : CodeNode) : CodeNode × CacheRecord :=
  if node.line_count < MIN_LINES_FOR_AI then
    ({ node with summary := some ("Small " ++ node.node_type.str ++ " (" ++
      toString node.line_count ++ " lines)") }, cache)
  else
    match entriesFind cache.entries (_cache_key node) with
    | some e =>
      ({ node with summary := some e.1, pseudocode := some e.2 }, cache)
    | none =>
      match _do_one_try ai cache node with
      | .ok r => r
      | .error _ =>
        ({ node with summary := some "Summary generation failed" }, cache)

/-- Stable insertion of a `(node, depth)` pair into a depth-sorted list
(new element goes after existing elements of equal depth). -/
def insertByDepth (x : CodeNode × Nat) :
    List (CodeNode × Nat) → List (CodeNode × Nat)
  | [] => [x]
  | y :: rest =>
    if y.2 ≤ x.2 then y :: insertByDepth x rest else x :: y :: rest

/-- Python's stable `sorted(pairs, key=depth)`.  Stable sorts of the same
key agree on their output, so stable insertion sort is a faithful model of
Timsort here. -/
def sortByDepth (l : List (CodeNode × Nat)) : List (CodeNode × Nat) :=
  l.foldl (fun acc x => insertByDepth x acc) []

/-- Model of `_select_ai_nodes(all_nodes)`: file nodes sorted shallowest-first, then
class/function/method nodes sorted shallowest-first. -/
def _select_ai_nodes (all_nodes : List (CodeNode × Nat)) : List CodeNode :=
  let files := sortByDepth (all_nodes.filter
    (fun p => p.1.node_type == .file))
  let code := sortByDepth (all_nodes.filter
    (fun p => p.1.node_type == .«class» || p.1.node_type == .function ||
      p.1.node_type == .method))
  files.map (·.1) ++ code.map (·.1)

/-- Model of `_dispatch_work(func, nodes, workers=1)`: run `func` on each node in
order, threading the shared cache; an exception raised by `func` aborts the
loop and propagates. -/
def _dispatch_work1
    (f : CacheRecord → CodeNode → Except ExcKind (CodeNode × CacheRecord))
    (cache : CacheRecord) :
    List CodeNode → Except ExcKind (List CodeNode × CacheRecord)
  | [] => .ok ([], cache)
  | n :: rest =>
    match f cache n with
    | .error e => .error e
    | .ok (n', c') =>
      match _dispatch_work1 f c' rest with
      | .error e => .error e
      | .ok (ns, c'') => .ok (n' :: ns, c'')

/-- Model of `_run_ai_batch(all_nodes, model, cache, workers=1)`: select and order
the AI nodes, then dispatch `_do_one` over them.  `_do_one` is total, so
the only way a connectivity error could abort the run is if `_do_one`
propagated it — which its `except Exception` prevents. -/
def _run_ai_batch (ai : CodeNode → AIOutcome) (cache : CacheRecord)
    (all_nodes : List (CodeNode × Nat)) :
    Except ExcKind (List CodeNode × CacheRecord) :=
  _dispatch_work1 (fun c n => .ok (_do_one ai c n)) cache
    (_select_ai_nodes all_nodes)

/-! ## Interactive server (codedocent/server.py)

The HTTP handler is modeled as a pure function from a request and the
server's shared state (the `_Handler` class attributes) to a response and
an updated state.  Socket I/O, threading and the idle watcher are outside
the model; the request carries the already-received header values and the
parse outcome of the body. -/

/-- Model of `MAX_BODY_SIZE = 10 * 1024 * 1024`. -/
def MAX_BODY_SIZE : Int := 10485760

/-- Substring test (Python's `in` on strings). -/
def strContains (pat s : String) : Bool :=
  (splitAtSub pat.data s.data).isSome

/-- The parse outcome of the `Content-Length` header: absent, present but
not an integer, or an integer value (possibly negative). -/
inductive CLHeader where
  | missing
  | nonNumeric
  | value (n : Int)

/-- HTTP request method. -/
inductive Method where
  | GET
  | POST

/-- An incoming request: path, the `X-Codedocent-Token` header, the
`Content-Length` header, whether the body read timed out, and the body's
JSON parse outcome (`none` = `json.loads` failed). -/
structure Request where
  path : String
  token : Option String
  contentLength : CLHeader
  readTimedOut : Bool
  body : Option Json

/-- An HTTP response: status code and JSON (or plain-text, as `.str`)
payload. -/
structure Response where
  status : Nat
  body : Json

/-- The `_Handler` class-level shared state: the node lookup, the tree
root, the per-path file contents, the persisted cache, the analysis
environment, the `os.path.realpath`-based template-directory and
project-root checks (oracles over the node's file path), and whether a
shutdown has been requested. -/
structure ServerState where
  root : CodeNode
  lookup : List (String × CodeNode)
  files : List (String × List Char)
  cache : CacheRecord
  env : AnalyzeEnv
  inTemplates : String → Bool
  escapesRoot : String → Bool
  shuttingDown : Bool

/-- Model of `node_lookup[node_id]`. -/
def lookupNode (st : ServerState) (nid : String) : Option CodeNode :=
  (st.lookup.find? (fun p => p.1 == nid)).map (·.2)

/-- Replace a node in the lookup table. -/
def updateNode (lookup : List (String × CodeNode)) (nid : String)
    (n : CodeNode) : List (String × CodeNode) :=
  lookup.map (fun p => if p.1 == nid then (p.1, n) else p)

/-- Store new content for a file path. -/
def filesStore (files : List (String × List Char)) (path : String)
    (content : List Char) : List (String × List Char) :=
  files.map (fun p => if p.1 == path then (p.1, content) else p)

/-- Model of `dict.pop(old_key, None)` on the entries map. -/
def entriesRemove (entries : List (String × String × String))
    (key : String) : List (String × String × String) :=
  entries.filter (fun p => p.1 != key)

/-- Model of `_resolve_filepath`: the node's file path (the `cache_dir` prefix is
absorbed into the path keys of `ServerState.files`). -/
def nodePath (node : CodeNode) : String := (node.filepath).getD ""

/-- An error body `{"success": false, "error": msg}`. -/
def errJson (msg : String) : Json :=
  .obj [("success", .bool false), ("error", .str msg)]

/-- Model of `_node_to_dict(node, include_source)`, abbreviated to the fields the
modeled endpoints inspect (children and styling fields omitted). -/
def nodeJson (node : CodeNode) (includeSource : Bool) : Json :=
  .obj ([("name", .str node.name),
         ("node_type", .str node.node_type.str),
         ("summary", match node.summary with
           | some s => .str s
           | none => .null)] ++
    (if includeSource then [("source", .str node.source)] else []))

/-- Model of `_execute_replace(node_id, body)`: validation chain in the source's
order (unknown id, directory, non-string source, 1 MB cap, template path,
path escape), then the editor under the analysis lock, then node/cache
updates.  The post-edit `_refresh_file_nodes` re-parse calls the external
parser; its failure only adds `tree_stale`, so the model applies the
node-level updates of `_update_node_after_replace` and omits the sibling
refresh. -/
def _execute_replace (st : ServerState) (nid : String) (body : Json) :
    (Nat × Json) × ServerState :=
  match lookupNode st nid with
  | none => ((404, errJson "Unknown node ID"), st)
  | some node =>
    if node.node_type = .directory then
      ((400, errJson "Cannot replace directory blocks"), st)
    else
      match (body.get "source").getD (.str "") with
      | .str new_source =>
        if (utf8Encode new_source.data).length > 1000000 then
          ((400, errJson "Replacement too large (max 1MB)"), st)
        else
          let path := nodePath node
          if st.inTemplates path then
            ((400, errJson "Cannot replace tool template files"), st)
          else if st.escapesRoot path then
            ((403, errJson "Path escapes project directory"), st)
          else
            let result : Except String (List Char × Nat × Nat) :=
              match st.files.find? (fun p => p.1 == path) with
              | none => .error ("File not found: " ++ path)
              | some pc =>
                replace_block_source pc.2 node.start_line node.end_line
                  new_source.data
            match result with
            | .ok r =>
              let node' := { node with
                source := new_source
                line_count := r.2.2
                end_line := node.start_line + r.2.2 - 1
                summary := none
                pseudocode := none
                quality := none
                warnings := none }
              let cache' := { st.cache with
                entries := entriesRemove st.cache.entries (_cache_key node) }
              ((200, .obj [("success", .bool true),
                 ("lines_before", .num r.2.1), ("lines_after", .num r.2.2)]),
               { st with
                 files := filesStore st.files path r.1
                 lookup := updateNode st.lookup nid node'
                 cache := cache' })
            | .error err =>
              if strContains "modified externally" err then
                ((409, errJson err), st)
              else if strContains "Invalid line range" err ||
                  strContains "exceeds file length" err ||
                  strContains "not valid UTF-8" err ||
                  strContains "must be a string" err ||
                  strContains "File not found" err then
                ((400, errJson err), st)
              else ((500, errJson err), st)
      | _ => ((400, errJson "source must be a string"), st)

/-- Model of `_handle_replace`: Content-Length validation, the 10 MB cap, the body
read with timeout, JSON parsing, then `_execute_replace` (whose
`AttributeError` on a non-dict body the broad handler turns into 500). -/
def _handle_replace (st : ServerState) (req : Request) (nid : String) :
    Response × ServerState :=
  match req.contentLength with
  | .missing => (⟨400, errJson "Missing Content-Length"⟩, st)
  | .nonNumeric => (⟨400, errJson "Invalid Content-Length"⟩, st)
  | .value n =>
    if n < 0 then (⟨400, errJson "Invalid Content-Length"⟩, st)
    else if n > MAX_BODY_SIZE then
      (⟨413, errJson "Request body too large"⟩, st)
    else if req.readTimedOut then
      (⟨408, errJson "Request body read timed out"⟩, st)
    else
      match req.body with
      | none => (⟨400, errJson "Invalid JSON"⟩, st)
      | some body =>
        if ¬body.isObj then (⟨500, errJson "Internal server error"⟩, st)
        else
          let r := _execute_replace st nid body
          (⟨r.1.1, r.1.2⟩, r.2)

/-- Model of `_analyze_node(node_id)`: `None` for an unknown id; an immediate return
when the node already has a summary; otherwise single-node analysis under
the lock, updating the node and (on a fresh AI result) the cache. -/
def _analyze_node (st : ServerState) (nid : String) :
    Option (Json × ServerState) :=
  match lookupNode st nid with
  | none => none
  | some node =>
    if node.summary.isSome then some (nodeJson node true, st)
    else
      let r := analyze_single_node st.env st.cache node
      some (nodeJson r.1 true,
        { st with
          lookup := updateNode st.lookup nid r.1
          cache := (r.2).getD st.cache })

/-- Model of `_Handler.do_GET`. -/
def do_GET (csrf : String) (st : ServerState) (req : Request) :
    Response × ServerState :=
  if req.path = "/" then (⟨200, .str "interactive page"⟩, st)
  else if pyStartsWith req.path "/api/" then
    if (req.token).getD "" ≠ csrf then
      (⟨403, .obj [("error", .str "Invalid or missing CSRF token")]⟩, st)
    else if req.path = "/api/tree" then
      (⟨200, nodeJson st.root false⟩, st)
    else if pyStartsWith req.path "/api/source/" then
      match lookupNode st (req.path.drop 12) with
      | none => (⟨404, .str "Unknown node ID"⟩, st)
      | some node => (⟨200, .obj [("source", .str node.source)]⟩, st)
    else (⟨404, .str "Not Found"⟩, st)
  else (⟨404, .str "Not Found"⟩, st)

/-- Model of `_Handler.do_POST`: the CSRF check precedes all dispatch. -/
def do_POST (csrf : String) (st : ServerState) (req : Request) :
    Response × ServerState :=
  if (req.token).getD "" ≠ csrf then
    (⟨403, .obj [("error", .str "Invalid or missing CSRF token")]⟩, st)
  else if req.path = "/shutdown" then
    (⟨200, .str "OK"⟩, { st with shuttingDown := true })
  else if pyStartsWith req.path "/api/analyze/" then
    match _analyze_node st (req.path.drop 13) with
    | none => (⟨404, .str "Unknown node ID"⟩, st)
    | some r => (⟨200, r.1⟩, r.2)
  else if pyStartsWith req.path "/api/replace/" then
    _handle_replace st req (req.path.drop 13)
  else (⟨404, .str "Not Found"⟩, st)

/-- Dispatch on the request method. -/
def handleRequest (csrf : String) (st : ServerState) (m : Method)
    (req : Request) : Response × ServerState :=
  match m with
  | .GET => do_GET csrf st req
  | .POST => do_POST csrf st req

/-! ## Concrete example nodes (used by witnesses and counterexamples) -/

/-- A warning-scored function node. -/
def exWarnFn : CodeNode :=
  { blankNode with name := "g", quality := some .warning }

/-- A file node with one warning-scored function child, scored clean
itself. -/
def exFileWarnChild : CodeNode :=
  { blankNode with
    name := "f.py"
    node_type := .file
    quality := some .clean
    children := [exWarnFn] }

/-- A 3-line function node named `alpha`. -/
def exFnAlpha : CodeNode :=
  { blankNode with
    name := "alpha"
    node_type := .function
    filepath := some "a.py"
    source := "def alpha():\n    x = 1\n    return x\n"
    line_count := 3 }

/-- A 3-line function node named `beta`. -/
def exFnBeta : CodeNode :=
  { blankNode with
    name := "beta"
    node_type := .function
    filepath := some "a.py"
    source := "def beta():\n    y = 2\n    return y\n"
    line_count := 3 }

/-- An AI oracle whose call for `alpha` raises `ConnectionError` and whose
call for any other node succeeds. -/
def exConnAI : CodeNode → AIOutcome := fun n =>
  if n.name = "alpha" then .exc .connectionError
  else .ok "Beta summary" "Beta pseudocode"

/-- An empty directory node (`line_count = 0`). -/
def exEmptyDir : CodeNode :=
  { blankNode with name := "src", node_type := .directory }

/-- A directory node with one file child and `line_count = 5`. -/
def exBigDir : CodeNode :=
  { blankNode with
    name := "src"
    node_type := .directory
    line_count := 5
    children := [{ blankNode with
      name := "a.py"
      node_type := .file
      line_count := 5
      quality := some .clean }] }

/-- A typical analysis environment: ollama installed, local backend. -/
def exEnv : AnalyzeEnv :=
  ⟨true, false, "qwen3:14b", [], .ok "AI text" "AI pseudo"⟩

/-- A directory tree `src/app.py` whose file has source `"x = 1"`. -/
def exTreeA : CodeNode :=
  { blankNode with
    name := "src"
    node_type := .directory
    children := [{ blankNode with
      name := "app.py"
      node_type := .file
      source := "x = 1"
      line_count := 1 }] }

/-- The same structure as `exTreeA`, but with different content fields
(`source`, `line_count`, `start_line`). -/
def exTreeB : CodeNode :=
  { blankNode with
    name := "src"
    node_type := .directory
    children := [{ blankNode with
      name := "app.py"
      node_type := .file
      source := "y = 2222\nz = 3"
      start_line := 5
      line_count := 2 }] }

/-- A concrete server state: one function node, one (empty) directory
node, one file, a fresh cache, no path oddities. -/
def exServerState : ServerState :=
  { root := exTreeA
    lookup := [("abc123", exFnAlpha), ("dir111", exEmptyDir)]
    files := [("a.py", "def alpha():\n    x = 1\n    return x\n".data)]
    cache := freshRecord "qwen3:14b"
    env := exEnv
    inTemplates := fun _ => false
    escapesRoot := fun _ => false
    shuttingDown := false }

/-- A string of 1,000,001 ASCII characters — one byte over the 1 MB
replacement cap. -/
def exBigSource : String := String.mk (List.replicate 1000001 'a')

/-- A replace body whose `source` exceeds the cap. -/
def exBigBody : Json := .obj [("source", .str exBigSource)]

/-! ## Theorems -/

/-! ### Quality rollup (C6) -/

theorem sevOpt_eq_getD (q : Option Quality) :
    sevOpt q = (q.getD .clean).sev := by
  cases q <;> rfl

theorem cqc_foldl_acc_le (children : List CodeNode)
    (acc : Quality × Nat × Nat) :
    acc.1.sev ≤ (children.foldl cqcStep acc).1.sev := by
  induction children generalizing acc with
  | nil => simp
  | cons c rest ih =>
    refine le_trans ?_ (ih (cqcStep acc c))
    simp only [cqcStep]
    split <;> omega

theorem cqc_foldl_mem_le (children : List CodeNode)
    (acc : Quality × Nat × Nat) (c : CodeNode) (hc : c ∈ children) :
    sevOpt c.quality ≤ (children.foldl cqcStep acc).1.sev := by
  induction children generalizing acc with
  | nil => cases hc
  | cons d rest ih =>
    rcases List.mem_cons.mp hc with h | h
    · subst h
      refine le_trans ?_ (cqc_foldl_acc_le rest (cqcStep acc c))
      rw [sevOpt_eq_getD]
      simp only [cqcStep]
      split <;> omega
    · exact ih (cqcStep acc d) h

theorem child_quality_counts_le (children : List CodeNode) (c : CodeNode)
    (hc : c ∈ children) :
    sevOpt c.quality ≤ (_child_quality_counts children).1.sev :=
  cqc_foldl_mem_le children _ c hc

/-- C6.  Quality rollup monotonicity: for every node whose direct children
have all been scored, after `_rollup_quality` the node's quality is at least
as severe as the most severe quality among its direct children (severity
order `warning > complex > clean`). -/
theorem rollup_quality_monotone (node : CodeNode)
    (hscored : ∀ c ∈ node.children, c.quality ≠ none) :
    ∀ c ∈ node.children, ∀ q, c.quality = some q →
      q.sev ≤ sevOpt (_rollup_quality node).quality := by
  intro c hc q hq
  have hle : q.sev ≤ (_child_quality_counts node.children).1.sev := by
    have := child_quality_counts_le node.children c hc
    rwa [hq] at this
  have hemp : node.children.isEmpty = false := by
    cases h : node.children.isEmpty
    · rfl
    · rw [List.isEmpty_iff] at h
      rw [h] at hc
      cases hc
  have hq' : (_rollup_quality node).quality =
      (if (_child_quality_counts node.children).1.sev >
          ((node.quality).getD .clean).sev
       then some (_child_quality_counts node.children).1
       else node.quality) := by
    unfold _rollup_quality
    rw [hemp]
    simp
  rw [hq']
  split
  · exact hle
  · rw [sevOpt_eq_getD]
    omega

/-! ### Tree recursion: induction principles and unfolding lemmas -/

theorem codeNodeInd (P : CodeNode → Prop)
    (h : ∀ t : CodeNode, (∀ c ∈ t.children, P c) → P t) : ∀ t, P t := by
  intro t
  apply h
  intro c hc
  have := List.sizeOf_lt_of_mem hc
  exact codeNodeInd P h c
termination_by t => sizeOf t
decreasing_by
  cases t
  simp at this ⊢
  omega

theorem shapeInd (P : Shape → Prop)
    (h : ∀ s : Shape, (∀ c ∈ s.children, P c) → P s) : ∀ s, P s := by
  intro s
  apply h
  intro c hc
  have := List.sizeOf_lt_of_mem hc
  exact shapeInd P h c
termination_by s => sizeOf s
decreasing_by
  cases s
  simp [Shape.children] at this ⊢
  omega

theorem assignWalk_eq (p : List String) (t : CodeNode) :
    assignWalk p t = { t with
      node_id := some (nodeIdOf (joinSep "::" p))
      children := t.children.map fun c =>
        assignWalk (p ++ [c.node_type.str, c.name]) c } := by
  rw [assignWalk]
  simp [List.attach_map_coe]

theorem preorderIds_eq (t : CodeNode) :
    preorderIds t = t.node_id :: (t.children.map preorderIds).flatten := by
  rw [preorderIds]
  simp [List.attach_map_coe]

theorem shapeOf_eq (t : CodeNode) :
    shapeOf t = .mk t.name t.node_type (t.children.map shapeOf) := by
  rw [shapeOf]
  simp [List.attach_map_coe]

theorem idsFromShape_eq (p : List String) (s : Shape) :
    idsFromShape p s = some (nodeIdOf (joinSep "::" p)) ::
      (s.children.map fun c =>
        idsFromShape (p ++ [c.ntype.str, c.name]) c).flatten := by
  rw [idsFromShape]
  simp [List.attach_map_coe]

theorem shapeOf_name (t : CodeNode) : (shapeOf t).name = t.name := by
  rw [shapeOf_eq]; rfl

theorem shapeOf_ntype (t : CodeNode) : (shapeOf t).ntype = t.node_type := by
  rw [shapeOf_eq]; rfl

theorem shapeOf_children (t : CodeNode) :
    (shapeOf t).children = t.children.map shapeOf := by
  rw [shapeOf_eq]; rfl

/-! ### Deterministic node ids (C7) -/

theorem preorderIds_assignWalk (t : CodeNode) :
    ∀ p, preorderIds (assignWalk p t) = idsFromShape p (shapeOf t) := by
  induction t using codeNodeInd with
  | h t ih =>
    intro p
    rw [assignWalk_eq, preorderIds_eq, idsFromShape_eq, shapeOf_children]
    simp only [List.map_map]
    congr 1
    congr 1
    apply List.map_congr_left
    intro c hc
    simp only [Function.comp_apply]
    rw [ih c hc, shapeOf_ntype, shapeOf_name]

theorem idsFromShape_all (s : Shape) :
    ∀ p, ∀ oid ∈ idsFromShape p s, ∃ key, oid = some (nodeIdOf key) := by
  induction s using shapeInd with
  | h s ih =>
    intro p oid hm
    rw [idsFromShape_eq] at hm
    rcases List.mem_cons.mp hm with h | h
    · exact ⟨joinSep "::" p, h⟩
    · rw [List.mem_flatten] at h
      obtain ⟨l, hl, hoid⟩ := h
      rw [List.mem_map] at hl
      obtain ⟨c, hc, rfl⟩ := hl
      exact ih c hc _ oid hoid

theorem byteHex_flatten_length (l : List Nat) :
    ((l.map byteHex).flatten).length = 2 * l.length := by
  induction l with
  | nil => rfl
  | cons b rest ih =>
    simp [byteHex] at ih ⊢
    omega

theorem md5Digest_length (m : List Nat) : (md5Digest m).length = 16 := by
  simp [md5Digest, le32]

theorem md5Hex_length (m : List Nat) : (md5Hex m).length = 32 := by
  rw [md5Hex, byteHex_flatten_length, md5Digest_length]

theorem nodeIdOf_length (key : String) : (nodeIdOf key).length = 12 := by
  rw [nodeIdOf]
  show ((md5Hex (utf8Encode key.data)).take 12).length = 12
  rw [List.length_take, md5Hex_length]
  rfl

theorem hexDigitChar_hex (n : Nat) : isHexDigit (hexDigitChar n) = true := by
  unfold hexDigitChar
  by_cases h1 : n < 10
  · rw [if_pos h1]
    interval_cases n <;> decide
  · rw [if_neg h1]
    by_cases h2 : n < 16
    · rw [if_pos h2]
      have h3 : 10 ≤ n := Nat.le_of_not_lt h1
      interval_cases n <;> decide
    · rw [if_neg h2]
      decide

theorem nodeIdOf_hex (key : String) :
    ∀ c ∈ (nodeIdOf key).data, isHexDigit c := by
  intro c hc
  have hc' : c ∈ md5Hex (utf8Encode key.data) := by
    rw [nodeIdOf] at hc
    exact List.mem_of_mem_take hc
  rw [md5Hex, List.mem_flatten] at hc'
  obtain ⟨l, hl, hcl⟩ := hc'
  rw [List.mem_map] at hl
  obtain ⟨b, _, rfl⟩ := hl
  rw [byteHex] at hcl
  rcases List.mem_cons.mp hcl with h | h
  · rw [h]; exact hexDigitChar_hex _
  · rcases List.mem_cons.mp h with h' | h'
    · rw [h']; exact hexDigitChar_hex _
    · cases h'

/-- C7.  Node ids are a pure function of structural path: for any two trees
with identical structure (same `node_type` and `name` at every position),
`assign_node_ids` assigns identical ids to corresponding nodes (in visiting
order), and every assigned id is a 12-character lowercase-hex string.  In
particular, content fields such as `source` and line numbers play no role,
since they do not appear in the shape. -/
theorem assign_node_ids_structural (t1 t2 : CodeNode)
    (h : shapeOf t1 = shapeOf t2) :
    preorderIds (assign_node_ids t1) = preorderIds (assign_node_ids t2) ∧
    ∀ oid ∈ preorderIds (assign_node_ids t1), ∃ s, oid = some s ∧
      s.length = 12 ∧ ∀ c ∈ s.data, isHexDigit c := by
  have hname : t1.name = t2.name := by
    have := congrArg Shape.name h
    rwa [shapeOf_name, shapeOf_name] at this
  constructor
  · rw [assign_node_ids, assign_node_ids, preorderIds_assignWalk,
      preorderIds_assignWalk, h, hname]
  · intro oid hm
    rw [assign_node_ids, preorderIds_assignWalk] at hm
    obtain ⟨key, rfl⟩ := idsFromShape_all (shapeOf t1) [t1.name] oid hm
    exact ⟨nodeIdOf key, rfl, nodeIdOf_length key, nodeIdOf_hex key⟩

/-- Witness for C7 at concrete trees: `exTreeA` and `exTreeB` share a shape
but differ in `source`, `start_line`, and `line_count`; the assigned ids
coincide. -/
theorem assign_node_ids_structural_witness :
    shapeOf exTreeA = shapeOf exTreeB ∧
    preorderIds (assign_node_ids exTreeA) =
      preorderIds (assign_node_ids exTreeB) := by
  have h : shapeOf exTreeA = shapeOf exTreeB := by
    rw [shapeOf_eq, shapeOf_eq]
    simp [exTreeA, exTreeB, shapeOf_eq]
  exact ⟨h, (assign_node_ids_structural exTreeA exTreeB h).1⟩

/-! ### Cache loading (C2) -/

/-- C2 counterexample.  `_load_cache` does not always return a well-formed
cache record: a file whose JSON content is the dict `{"version": 1}` (a
version-1 dict lacking the `model` and `entries` fields) is returned
unchanged, and the result is not a well-formed record. -/
theorem load_cache_not_always_well_formed :
    _load_cache (.parsed (Json.obj [("version", Json.num 1)])) =
      Json.obj [("version", Json.num 1)] ∧
    isWellFormedRecord
      (_load_cache (.parsed (Json.obj [("version", Json.num 1)]))) = false := by
  constructor <;> rfl

/-- C2 (amended).  `_load_cache` is total (never raises, in the modeled
failure modes): it returns the fresh empty record
`{"version": 1, "model": "", "entries": {}}` on a missing file, an OS error,
content unreadable as JSON, or any parsed value that is not a dict with
version tag `1`; otherwise it returns the parsed dict unchanged — which is
well-formed except possibly in that passthrough case. -/
theorem load_cache_characterization (o : LoadOutcome) :
    ((o = .missing ∨ o = .osError ∨ o = .badJson) →
      _load_cache o = freshCacheJson) ∧
    (∀ j, o = .parsed j → j.isVersion1Dict = false →
      _load_cache o = freshCacheJson) ∧
    (isWellFormedRecord (_load_cache o) = true ∨
      ∃ j, o = .parsed j ∧ _load_cache o = j ∧ j.isVersion1Dict = true) := by
  refine ⟨?_, ?_, ?_⟩
  · intro h
    rcases h with h | h | h <;> subst h <;> rfl
  · intro j hj hv
    subst hj
    simp [_load_cache, hv]
  · cases o with
    | parsed j =>
      by_cases hv : j.isVersion1Dict
      · exact Or.inr ⟨j, rfl, by simp [_load_cache, hv], hv⟩
      · left
        have : _load_cache (.parsed j) = freshCacheJson := by
          simp [_load_cache, hv]
        rw [this]
        rfl
    | missing => left; rfl
    | osError => left; rfl
    | badJson => left; rfl

/-- Witness for C2 (amended) at a concrete outcome: unreadable JSON yields
the fresh empty record. -/
theorem load_cache_characterization_witness :
    _load_cache .badJson = freshCacheJson :=
  (load_cache_characterization .badJson).1 (Or.inr (Or.inr rfl))

/-! ### Quality rollup (C6, continued witnesses below) -/

/-- Witness for C6 at a concrete node: a clean-scored file with a
`warning`-scored child rolls up to severity ≥ 2. -/
theorem rollup_quality_monotone_witness :
    (∀ c ∈ exFileWarnChild.children, c.quality ≠ none) ∧
    Quality.sev .warning ≤
      sevOpt (_rollup_quality exFileWarnChild).quality := by
  constructor
  · intro c hc
    simp only [exFileWarnChild, List.mem_singleton] at hc
    subst hc
    simp [exWarnFn]
  · exact rollup_quality_monotone exFileWarnChild
      (by intro c hc
          simp only [exFileWarnChild, List.mem_singleton] at hc
          subst hc; simp [exWarnFn])
      exWarnFn (by simp [exFileWarnChild]) .warning rfl

/-! ### Batch connectivity failure (C1) -/

/-- C1 failing input.  In `_run_ai_batch`, `_do_one`'s `except Exception`
handler also catches `ConnectionError`: in a two-node batch whose first AI
call raises `ConnectionError`, the first node is marked
`"Summary generation failed"`, the second node is still analyzed, and the
run returns normally — no connectivity error reaches `_dispatch_work`'s
`isinstance(exc, ConnectionError)` re-raise or `analyze`'s
`except ConnectionError` handler, which are therefore unreachable. -/
theorem batch_continues_after_connection_error :
    _run_ai_batch exConnAI (freshRecord "qwen3:14b")
        [(exFnAlpha, 0), (exFnBeta, 0)] =
      .ok ([{ exFnAlpha with summary := some "Summary generation failed" },
            { exFnBeta with
              summary := some "Beta summary"
              pseudocode := some "Beta pseudocode" }],
           { freshRecord "qwen3:14b" with
             entries :=
               [(_cache_key exFnBeta, "Beta summary", "Beta pseudocode")] }) :=
  rfl

/-! ### Directory summaries in single-node analysis (C3) -/

/-- C3 counterexample.  `analyze_single_node` on an empty directory (with
ollama available) sets the summary to `"Small directory (0 lines)"` — the
min-lines guard fires before the directory branch — and not to the
synthesized directory summary `"Empty directory"`. -/
theorem analyze_single_node_small_directory :
    (analyze_single_node exEnv (freshRecord "qwen3:14b") exEmptyDir).1.summary
      = some "Small directory (0 lines)" ∧
    dirSummaryText exEmptyDir = "Empty directory" ∧
    (analyze_single_node exEnv (freshRecord "qwen3:14b") exEmptyDir).1.summary
      ≠ some (dirSummaryText exEmptyDir) := by
  exact ⟨rfl, rfl, by decide⟩

theorem dirSummaryText_update (node : CodeNode) (q : Option Quality)
    (w : Option (List String)) :
    dirSummaryText { node with quality := q, warnings := w } =
      dirSummaryText node := rfl

/-- C3 (amended).  For every directory node reaching the lazy single-node
analysis with a working backend: when `line_count ≥ MIN_LINES_FOR_AI` the
summary is the synthesized directory summary; the cache is not written;
and (for any directory, small or not) the result never depends on the AI
oracle or the loaded cache — directories never trigger AI calls.
Directories below the 3-line guard instead get `"Small directory (N
lines)"` (see the counterexample), and runs without any backend get
`"AI unavailable (ollama not installed)"`. -/
theorem analyze_single_node_directory_synthesized
    (env : AnalyzeEnv) (loaded : CacheRecord) (node : CodeNode)
    (hdir : node.node_type = .directory)
    (havail : env.isCloud ∨ env.ollamaAvailable)
    (hbig : ¬node.line_count < MIN_LINES_FOR_AI) :
    (analyze_single_node env loaded node).1.summary =
      some (dirSummaryText node) ∧
    (analyze_single_node env loaded node).2 = none ∧
    (∀ env2 loaded2, env2.isCloud = env.isCloud →
      env2.ollamaAvailable = env.ollamaAvailable →
      env2.scorers = env.scorers →
      analyze_single_node env2 loaded2 node =
        analyze_single_node env loaded node) := by
  have hcond : ¬(¬env.isCloud ∧ ¬env.ollamaAvailable) := by
    rcases havail with h | h <;> simp [h]
  have hsq : _score_quality env.scorers node = (none, none) := by
    unfold _score_quality
    rw [if_pos hdir]
  have hkey : analyze_single_node env loaded node =
      (_summarize_directory { node with quality := none, warnings := none },
       none) := by
    unfold analyze_single_node
    rw [if_neg hcond]
    simp only [hsq]
    rw [if_neg hbig, if_pos hdir]
  have hsum : (_summarize_directory
      { node with quality := none, warnings := none }).summary =
      some (dirSummaryText node) := by
    unfold _summarize_directory
    rw [if_neg (by simp [hdir])]
    exact congrArg some (dirSummaryText_update node none none)
  refine ⟨by rw [hkey]; exact hsum, by rw [hkey], ?_⟩
  intro env2 loaded2 hc ho hs
  have hcond2 : ¬(¬env2.isCloud ∧ ¬env2.ollamaAvailable) := by
    rw [hc, ho]; exact hcond
  have hsq2 : _score_quality env2.scorers node = (none, none) := by
    unfold _score_quality
    rw [if_pos hdir]
  have hkey2 : analyze_single_node env2 loaded2 node =
      (_summarize_directory { node with quality := none, warnings := none },
       none) := by
    unfold analyze_single_node
    rw [if_neg hcond2]
    simp only [hsq2]
    rw [if_neg hbig, if_pos hdir]
  rw [hkey, hkey2]

/-- Witness for C3 (amended) at a concrete directory: a 5-line directory
with one file child is summarized as `"Contains 1 files: a.py"`. -/
theorem analyze_single_node_directory_synthesized_witness :
    (analyze_single_node exEnv (freshRecord "qwen3:14b") exBigDir).1.summary
      = some (dirSummaryText exBigDir) ∧
    dirSummaryText exBigDir = "Contains 1 files: a.py" :=
  ⟨(analyze_single_node_directory_synthesized exEnv (freshRecord "qwen3:14b")
      exBigDir rfl (Or.inr rfl) (by decide)).1, rfl⟩

/-! ### Garbage-response guard (C9) -/

/-- C9.  Given the raw model output `"<think>...</think>hi"`, the think-tag
block is stripped, the cleaned text `"hi"` is shorter than 10 characters,
and the response post-processing returns exactly
`("Could not generate summary", "")`. -/
theorem garbage_response_guard :
    _strip_think_tags "<think>...</think>hi".data = "hi".data ∧
    ("hi".data).length < 10 ∧
    postprocessResponse "<think>...</think>hi".data =
      ("Could not generate summary".data, "".data) := by
  decide

/-! ### Model-change cache invalidation (C8) -/

/-- C8.  When the loaded cache record stores a model identifier different
from the current one, `_init_cache` replaces it by the fresh record with an
empty entries map, and `analyze_single_node` (which runs the identical
check) behaves exactly as if the loaded cache were the fresh empty record —
no entry written under another model is ever read. -/
theorem cache_model_invalidation (loaded : CacheRecord) (mid : String)
    (hne : loaded.model ≠ mid) :
    _init_cache loaded mid = freshRecord mid ∧
    (_init_cache loaded mid).entries = [] ∧
    ∀ env node, env.modelId = mid →
      analyze_single_node env loaded node =
        analyze_single_node env (freshRecord mid) node := by
  have h1 : _init_cache loaded mid = freshRecord mid := by
    unfold _init_cache modelCheck
    rw [if_pos hne]
  refine ⟨h1, by rw [h1]; rfl, ?_⟩
  intro env node hmid
  have h2 : modelCheck loaded env.modelId =
      modelCheck (freshRecord mid) env.modelId := by
    rw [hmid]
    show modelCheck loaded mid = modelCheck (freshRecord mid) mid
    unfold modelCheck
    rw [if_pos hne]
    have hfresh : ¬(freshRecord mid).model ≠ mid := by
      simp [freshRecord]
    rw [if_neg hfresh]
  unfold analyze_single_node
  rw [h2]

/-- Witness for C8 at concrete values: a cache written under `"oldmodel"`
is reset when the current identifier is the composite cloud form
`cloud:openai:gpt-4`. -/
theorem cache_model_invalidation_witness :
    _init_cache ⟨1, "oldmodel", [("k", "s", "p")]⟩
        (_cache_model_id "m" (some ⟨"cloud", "openai", "gpt-4"⟩)) =
      freshRecord "cloud:openai:gpt-4" :=
  (cache_model_invalidation ⟨1, "oldmodel", [("k", "s", "p")]⟩
    (_cache_model_id "m" (some ⟨"cloud", "openai", "gpt-4"⟩))
    (by decide)).1

/-! ### Structure of `splitlines` (supporting C5) -/

theorem splitK_crlf (r2 : List Char) :
    splitK ('\r' :: '\n' :: r2) = ['\r', '\n'] :: splitK r2 := by
  simp [splitK]

theorem splitK_cr_cons (d : Char) (r2 : List Char) (h : d ≠ '\n') :
    splitK ('\r' :: d :: r2) = ['\r'] :: splitK (d :: r2) := by
  simp [splitK, h]

theorem splitK_break (c : Char) (rest : List Char) (h1 : c ≠ '\r')
    (h2 : isLineBreak c = true) :
    splitK (c :: rest) = [c] :: splitK rest := by
  cases rest <;> simp [splitK, h1, h2]

theorem isLineBreak_cr : isLineBreak '\r' = true := by decide

theorem isLineBreak_lf : isLineBreak '\n' = true := by decide

theorem splitK_nonbreak (c : Char) (rest : List Char)
    (h2 : isLineBreak c = false) :
    splitK (c :: rest) =
      match splitK rest with
      | [] => [[c]]
      | l :: ls => (c :: l) :: ls := by
  have h1 : c ≠ '\r' := by
    intro h
    rw [h, isLineBreak_cr] at h2
    cases h2
  cases rest <;> simp [splitK, h1, h2]

theorem splitK_flatten (s : List Char) : (splitK s).flatten = s := by
  induction s using splitK.induct with
  | case1 => rfl
  | case2 => rfl
  | case3 r2 ih => rw [splitK_crlf]; simp [ih]
  | case4 d r2 hd ih => rw [splitK_cr_cons d r2 hd]; simp [ih]
  | case5 d r2 h1 h2 ih => rw [splitK_break d r2 h1 h2]; simp [ih]
  | case6 d r2 h1 h2 hnil ih =>
    rw [splitK_nonbreak d r2 (Bool.not_eq_true _ ▸ h2 : isLineBreak d = false)]
    rw [hnil] at ih ⊢
    simp at ih
    simp [ih]
  | case7 d r2 h1 h2 l ls hcons ih =>
    rw [splitK_nonbreak d r2 (Bool.not_eq_true _ ▸ h2 : isLineBreak d = false)]
    rw [hcons] at ih ⊢
    simp at ih ⊢
    exact ih

theorem mem_of_mem_splitK {s l : List Char} {c : Char}
    (hl : l ∈ splitK s) (hc : c ∈ l) : c ∈ s := by
  rw [← splitK_flatten s, List.mem_flatten]
  exact ⟨l, hl, hc⟩

theorem termLine_cons_nonbreak {l : List Char} (d : Char)
    (hd : isLineBreak d = false) (h : TermLine l) : TermLine (d :: l) := by
  obtain ⟨content, term, rfl, hc, ht⟩ := h
  exact ⟨d :: content, term, rfl, by
    intro c hcmem
    rcases List.mem_cons.mp hcmem with h | h
    · rw [h]; exact hd
    · exact hc c h, ht⟩

theorem contentLine_cons_nonbreak {l : List Char} (d : Char)
    (hd : isLineBreak d = false) (h : ContentLine l) : ContentLine (d :: l) := by
  refine ⟨List.cons_ne_nil d l, ?_⟩
  intro c hcmem
  rcases List.mem_cons.mp hcmem with hmem | hmem
  · rw [hmem]; exact hd
  · exact h.2 c hmem

theorem termLine_crlf : TermLine ['\r', '\n'] :=
  ⟨[], ['\r', '\n'], rfl,
    ⟨fun c hc => absurd hc (List.not_mem_nil c), Or.inl rfl⟩⟩

theorem termLine_single (b : Char) (hb : isLineBreak b = true) :
    TermLine [b] :=
  ⟨[], [b], rfl,
    ⟨fun c hc => absurd hc (List.not_mem_nil c), Or.inr ⟨b, rfl, hb⟩⟩⟩

theorem splitK_line_structure (s : List Char) :
    ∀ l ∈ splitK s, TermLine l ∨ ContentLine l := by
  induction s using splitK.induct with
  | case1 => intro l hl; cases hl
  | case2 =>
    intro l hl
    simp only [show splitK ['\r'] = [['\r']] from rfl,
      List.mem_singleton] at hl
    subst hl
    exact Or.inl (termLine_single '\r' isLineBreak_cr)
  | case3 r2 ih =>
    intro l hl
    rw [splitK_crlf] at hl
    rcases List.mem_cons.mp hl with h | h
    · subst h; exact Or.inl termLine_crlf
    · exact ih l h
  | case4 d r2 hd ih =>
    intro l hl
    rw [splitK_cr_cons d r2 hd] at hl
    rcases List.mem_cons.mp hl with h | h
    · subst h; exact Or.inl (termLine_single '\r' isLineBreak_cr)
    · exact ih l h
  | case5 d r2 h1 h2 ih =>
    intro l hl
    rw [splitK_break d r2 h1 h2] at hl
    rcases List.mem_cons.mp hl with h | h
    · subst h; exact Or.inl (termLine_single d h2)
    · exact ih l h
  | case6 d r2 h1 h2 hnil ih =>
    intro l hl
    have h2' : isLineBreak d = false := Bool.not_eq_true _ ▸ h2
    rw [splitK_nonbreak d r2 h2', hnil] at hl
    simp at hl
    subst hl
    exact Or.inr ⟨List.cons_ne_nil d [], by
      intro c hc
      rw [List.mem_singleton] at hc
      subst hc
      exact h2'⟩
  | case7 d r2 h1 h2 l0 ls hcons ih =>
    intro l hl
    have h2' : isLineBreak d = false := Bool.not_eq_true _ ▸ h2
    rw [splitK_nonbreak d r2 h2', hcons] at hl
    rcases List.mem_cons.mp hl with h | h
    · subst h
      rcases ih l0 (hcons ▸ List.mem_cons_self l0 ls) with ht | hcnt
      · exact Or.inl (termLine_cons_nonbreak d h2' ht)
      · exact Or.inr (contentLine_cons_nonbreak d h2' hcnt)
    · exact ih l (hcons ▸ List.mem_cons_of_mem l0 h)

theorem splitK_dropLast_term (s : List Char) :
    ∀ l ∈ (splitK s).dropLast, TermLine l := by
  induction s using splitK.induct with
  | case1 => intro l hl; cases hl
  | case2 =>
    intro l hl
    simp only [show splitK ['\r'] = [['\r']] from rfl,
      List.dropLast_single] at hl
    cases hl
  | case3 r2 ih =>
    intro l hl
    rw [splitK_crlf] at hl
    by_cases hrest : splitK r2 = []
    · rw [hrest] at hl
      cases hl
    · rw [List.dropLast_cons_of_ne_nil hrest] at hl
      rcases List.mem_cons.mp hl with h | h
      · subst h; exact termLine_crlf
      · exact ih l h
  | case4 d r2 hd ih =>
    intro l hl
    rw [splitK_cr_cons d r2 hd] at hl
    by_cases hrest : splitK (d :: r2) = []
    · rw [hrest] at hl
      cases hl
    · rw [List.dropLast_cons_of_ne_nil hrest] at hl
      rcases List.mem_cons.mp hl with h | h
      · subst h; exact termLine_single '\r' isLineBreak_cr
      · exact ih l h
  | case5 d r2 h1 h2 ih =>
    intro l hl
    rw [splitK_break d r2 h1 h2] at hl
    by_cases hrest : splitK r2 = []
    · rw [hrest] at hl
      cases hl
    · rw [List.dropLast_cons_of_ne_nil hrest] at hl
      rcases List.mem_cons.mp hl with h | h
      · subst h; exact termLine_single d h2
      · exact ih l h
  | case6 d r2 h1 h2 hnil ih =>
    intro l hl
    have h2' : isLineBreak d = false := Bool.not_eq_true _ ▸ h2
    rw [splitK_nonbreak d r2 h2', hnil] at hl
    cases hl
  | case7 d r2 h1 h2 l0 ls hcons ih =>
    intro l hl
    have h2' : isLineBreak d = false := Bool.not_eq_true _ ▸ h2
    rw [splitK_nonbreak d r2 h2', hcons] at hl
    rw [hcons] at ih
    by_cases hls : ls = []
    · rw [hls] at hl
      cases hl
    · rw [List.dropLast_cons_of_ne_nil hls] at hl
      have hdl : (l0 :: ls).dropLast = l0 :: ls.dropLast :=
        List.dropLast_cons_of_ne_nil hls
      rcases List.mem_cons.mp hl with h | h
      · subst h
        have hl0 : TermLine l0 := ih l0 (hdl ▸ List.mem_cons_self l0 _)
        exact termLine_cons_nonbreak d h2' hl0
      · exact ih l (hdl ▸ List.mem_cons_of_mem l0 h)

theorem splitK_append_break (content : List Char) (b : Char)
    (rest : List Char) (hc : ∀ c ∈ content, isLineBreak c = false)
    (hb : isLineBreak b = true)
    (hmerge : ¬(b = '\r' ∧ rest.head? = some '\n')) :
    splitK (content ++ b :: rest) = (content ++ [b]) :: splitK rest := by
  induction content with
  | nil =>
    simp only [List.nil_append]
    by_cases hbr : b = '\r'
    · subst hbr
      cases rest with
      | nil => rfl
      | cons d r2 =>
        have hd : d ≠ '\n' := by
          intro h
          exact hmerge ⟨rfl, by rw [h]; rfl⟩
        exact splitK_cr_cons d r2 hd
    · exact splitK_break b rest hbr hb
  | cons c content' ih =>
    have hcnb : isLineBreak c = false := hc c (List.mem_cons_self c _)
    have ih' := ih (fun x hx => hc x (List.mem_cons_of_mem c hx))
    rw [List.cons_append, splitK_nonbreak c _ hcnb, ih']
    rfl

theorem splitK_append_crlf (content : List Char) (rest : List Char)
    (hc : ∀ c ∈ content, isLineBreak c = false) :
    splitK (content ++ '\r' :: '\n' :: rest) =
      (content ++ ['\r', '\n']) :: splitK rest := by
  induction content with
  | nil => exact splitK_crlf rest
  | cons c content' ih =>
    have hcnb : isLineBreak c = false := hc c (List.mem_cons_self c _)
    have ih' := ih (fun x hx => hc x (List.mem_cons_of_mem c hx))
    rw [List.cons_append, splitK_nonbreak c _ hcnb, ih']
    rfl

theorem splitK_content_only (content : List Char) (hne : content ≠ [])
    (hc : ∀ c ∈ content, isLineBreak c = false) :
    splitK content = [content] := by
  induction content with
  | nil => exact absurd rfl hne
  | cons c content' ih =>
    have hcnb : isLineBreak c = false := hc c (List.mem_cons_self c _)
    rw [splitK_nonbreak c _ hcnb]
    cases hcontent' : content' with
    | nil => rfl
    | cons d r =>
      rw [← hcontent',
        ih (by rw [hcontent']; exact List.cons_ne_nil d r)
          (fun x hx => hc x (List.mem_cons_of_mem c hx))]

theorem TermLine.getLast_break {l : List Char} (h : TermLine l) :
    ∃ b, l.getLast? = some b ∧ isLineBreak b = true := by
  obtain ⟨content, term, rfl, hc, ht⟩ := h
  rcases ht with h | ⟨b, rfl, hb⟩
  · subst h
    refine ⟨'\n', ?_, isLineBreak_lf⟩
    rw [show content ++ ['\r', '\n'] = (content ++ ['\r']) ++ ['\n'] by simp,
      List.getLast?_concat]
  · exact ⟨b, List.getLast?_concat content, hb⟩

theorem splitK_termline_append (l rest : List Char) (h : TermLine l)
    (hcr : l.getLast? ≠ some '\r') :
    splitK (l ++ rest) = l :: splitK rest := by
  obtain ⟨content, term, rfl, hc, ht⟩ := h
  rcases ht with hterm | ⟨b, hterm, hb⟩
  · subst hterm
    rw [show (content ++ ['\r', '\n']) ++ rest =
      content ++ '\r' :: '\n' :: rest by simp]
    exact splitK_append_crlf content rest hc
  · subst hterm
    have hbcr : ¬(b = '\r' ∧ rest.head? = some '\n') := by
      intro ⟨hb', _⟩
      subst hb'
      exact hcr (List.getLast?_concat content)
    rw [show (content ++ [b]) ++ rest = content ++ b :: rest by simp]
    exact splitK_append_break content b rest hc hb hbcr

theorem splitK_flatten_termlines (P : List (List Char)) (rest : List Char)
    (hP : ∀ l ∈ P, TermLine l ∧ l.getLast? ≠ some '\r') :
    splitK (P.flatten ++ rest) = P ++ splitK rest := by
  induction P with
  | nil => simp
  | cons l P' ih =>
    have hl := hP l (List.mem_cons_self l P')
    rw [List.flatten_cons, List.append_assoc,
      splitK_termline_append l _ hl.1 hl.2,
      ih (fun x hx => hP x (List.mem_cons_of_mem l hx))]
    rfl

theorem splitK_flatten_all (S : List (List Char))
    (hS : ∀ l ∈ S, (TermLine l ∨ ContentLine l) ∧ l.getLast? ≠ some '\r')
    (hterm : ∀ l ∈ S.dropLast, TermLine l) :
    splitK S.flatten = S := by
  induction S with
  | nil => rfl
  | cons l S' ih =>
    cases hS' : S' with
    | nil =>
      subst hS'
      rw [List.flatten_cons, List.flatten_nil, List.append_nil]
      have hl := hS l (List.mem_cons_self l [])
      rcases hl.1 with ht | hcnt
      · have := splitK_termline_append l [] ht hl.2
        rw [List.append_nil] at this
        rw [this]
        rfl
      · exact splitK_content_only l hcnt.1 hcnt.2
    | cons m S'' =>
      rw [← hS']
      have hne : S' ≠ [] := by rw [hS']; exact List.cons_ne_nil m S''
      have hterml : TermLine l := by
        apply hterm
        rw [List.dropLast_cons_of_ne_nil hne]
        exact List.mem_cons_self l _
      have hl := hS l (List.mem_cons_self l S')
      rw [List.flatten_cons, splitK_termline_append l _ hterml hl.2,
        ih (fun x hx => hS x (List.mem_cons_of_mem l hx))
          (fun x hx => hterm x (by
            rw [List.dropLast_cons_of_ne_nil hne]
            exact List.mem_cons_of_mem l hx))]

theorem nonbreak_ne_rn {c : Char} (hc : isLineBreak c = false) :
    c ≠ '\r' ∧ c ≠ '\n' := by
  constructor
  · intro h; rw [h, isLineBreak_cr] at hc; cases hc
  · intro h; rw [h, isLineBreak_lf] at hc; cases hc

theorem stripEnd_append_crlf (content : List Char)
    (hc : ∀ c ∈ content, isLineBreak c = false) :
    stripEnd (content ++ ['\r', '\n']) = content := by
  unfold stripEnd
  rw [show (content ++ ['\r', '\n']).reverse =
    '\n' :: '\r' :: content.reverse by simp]
  simp

theorem stripEnd_append_single (content : List Char) (b : Char)
    (hc : ∀ c ∈ content, isLineBreak c = false)
    (hb : isLineBreak b = true) :
    stripEnd (content ++ [b]) = content := by
  unfold stripEnd
  rw [show (content ++ [b]).reverse = b :: content.reverse by simp]
  by_cases hbn : b = '\n'
  · subst hbn
    cases hcr : content.reverse with
    | nil =>
      have : content = [] := by
        rw [← List.reverse_reverse content, hcr]
        rfl
      simp [this]
    | cons d rest2 =>
      have hd : d ≠ '\r' := by
        have hmem : d ∈ content := by
          rw [← List.reverse_reverse content, hcr]
          simp
        exact (nonbreak_ne_rn (hc d hmem)).1
      simp [hd, ← hcr]
  · simp [hbn, hb]

theorem stripEnd_breakfree (l : List Char)
    (hc : ∀ c ∈ l, isLineBreak c = false) : stripEnd l = l := by
  unfold stripEnd
  cases hrev : l.reverse with
  | nil =>
    rw [← List.reverse_reverse l, hrev]
    rfl
  | cons c rest =>
    have hmem : c ∈ l := by
      rw [← List.reverse_reverse l, hrev]
      simp
    have hcc := hc c hmem
    simp [(nonbreak_ne_rn hcc).2, hcc]

theorem dropWhileRN_breakfree (content : List Char)
    (hc : ∀ c ∈ content, isLineBreak c = false) :
    content.reverse.dropWhile (fun c => c == '\r' || c == '\n') =
      content.reverse := by
  cases hrev : content.reverse with
  | nil => rfl
  | cons c rest =>
    have hmem : c ∈ content := by
      rw [← List.reverse_reverse content, hrev]
      simp
    have := nonbreak_ne_rn (hc c hmem)
    rw [List.dropWhile_cons]
    simp [this.1, this.2]

theorem rstripRN_append_crlf (content : List Char)
    (hc : ∀ c ∈ content, isLineBreak c = false) :
    rstripRN (content ++ ['\r', '\n']) = content := by
  unfold rstripRN
  rw [show (content ++ ['\r', '\n']).reverse =
    '\n' :: '\r' :: content.reverse by simp]
  rw [List.dropWhile_cons, List.dropWhile_cons]
  simp [dropWhileRN_breakfree content hc]

theorem rstripRN_append_single (content : List Char) (b : Char)
    (hc : ∀ c ∈ content, isLineBreak c = false)
    (hb : b = '\r' ∨ b = '\n') :
    rstripRN (content ++ [b]) = content := by
  unfold rstripRN
  rw [show (content ++ [b]).reverse = b :: content.reverse by simp]
  rw [List.dropWhile_cons]
  have hbp : (b == '\r' || b == '\n') = true := by
    rcases hb with h | h <;> simp [h]
  simp only [hbp, if_true]
  simp [dropWhileRN_breakfree content hc]

theorem rstripRN_breakfree (l : List Char)
    (hc : ∀ c ∈ l, isLineBreak c = false) : rstripRN l = l := by
  unfold rstripRN
  rw [show l.reverse = l.reverse from rfl, dropWhileRN_breakfree l hc]
  simp

theorem rstripRN_eq_stripEnd (T : List Char)
    (hT : ∀ c ∈ T, isLineBreak c = true → c = '\r' ∨ c = '\n') :
    ∀ l ∈ splitK T, rstripRN l = stripEnd l := by
  intro l hl
  rcases splitK_line_structure T l hl with ht | hcnt
  · obtain ⟨content, term, rfl, hc, hterm⟩ := ht
    rcases hterm with h | ⟨b, h, hb⟩
    · subst h
      rw [rstripRN_append_crlf _ hc, stripEnd_append_crlf _ hc]
    · subst h
      have hbrn : b = '\r' ∨ b = '\n' :=
        hT b (mem_of_mem_splitK hl (by simp)) hb
      rw [rstripRN_append_single _ b hc hbrn,
        stripEnd_append_single _ b hc hb]
  · rw [rstripRN_breakfree _ hcnt.2, stripEnd_breakfree _ hcnt.2]

theorem stripEnd_splitK_breakfree (s : List Char) :
    ∀ l ∈ splitK s, ∀ c ∈ stripEnd l, isLineBreak c = false := by
  intro l hl
  rcases splitK_line_structure s l hl with ht | hcnt
  · obtain ⟨content, term, rfl, hc, hterm⟩ := ht
    rcases hterm with h | ⟨b, h, hb⟩
    · subst h
      rw [stripEnd_append_crlf _ hc]
      exact hc
    · subst h
      rw [stripEnd_append_single _ b hc hb]
      exact hc
  · rw [stripEnd_breakfree _ hcnt.2]
    exact hcnt.2

/-! ### Round-trip edit (C5) -/

theorem lineEnding_cases (orig : List Char) :
    lineEnding orig = ['\n'] ∨ lineEnding orig = ['\r', '\n'] := by
  unfold lineEnding
  split
  · exact Or.inr rfl
  · exact Or.inl rfl

theorem new_lines_eq (T : List Char) (le : List Char)
    (hT : ∀ c ∈ T, isLineBreak c = true → c = '\r' ∨ c = '\n') :
    (if T.isEmpty then []
     else (splitK T).map (fun ln => rstripRN ln ++ le)) =
      (pyLines T).map (fun l => l ++ le) := by
  cases T with
  | nil => rfl
  | cons c rest =>
    rw [if_neg (by simp)]
    unfold pyLines
    rw [List.map_map]
    apply List.map_congr_left
    intro l hl
    simp only [Function.comp_apply]
    rw [rstripRN_eq_stripEnd _ hT l hl]

/-- C5 counterexample.  The round-trip property fails when a retained
original line ends in a bare carriage return and the following emitted line
starts with a line feed: in the LF-dominant file `"a\rb\n\n"` (lines
`["a\r", "b\n", "\n"]`), replacing line 2 with the empty text produces
`"a\r\n"`, which reads back as the single line `["a\r\n"]` instead of the
claimed `["a\r", "\n"]` — the bare CR merges with the following LF. -/
theorem round_trip_edit_counterexample :
    replace_block_source "a\rb\n\n".data 2 2 "".data =
      .ok ("a\r\n".data, 1, 0) ∧
    splitK "a\r\n".data ≠
      (splitK "a\rb\n\n".data).take 1 ++
      (pyLines "".data).map (fun l => l ++ lineEnding "a\rb\n\n".data) ++
      (splitK "a\rb\n\n".data).drop 2 := by
  constructor
  · rfl
  · decide

/-- C5 (amended).  Round-trip edit: for every file content, valid range
`1 ≤ s ≤ e ≤ line count` and replacement text `T`, provided (i) no line of
the original file ends in a bare carriage return and (ii) `T` contains no
line-boundary characters other than CR and LF, `replace_block_source`
succeeds with `lines_before = e - s + 1` and `lines_after = |T's lines|`,
and reading the file back and splitting it into lines yields exactly the
original lines `[1, s-1]` (byte-for-byte, with their own endings), then
`T`'s lines each re-emitted with the file's dominant line ending, then the
original lines `[e+1, end]`.  Without (i) a retained bare-CR line can merge
with a following LF (see the counterexample); without (ii) an exotic
boundary inside an emitted line would split it on read-back. -/
theorem round_trip_edit (orig : List Char) (s e : Nat) (T : List Char)
    (hs : 1 ≤ s) (hse : s ≤ e) (he : e ≤ (splitK orig).length)
    (hnoCR : ∀ l ∈ splitK orig, l.getLast? ≠ some '\r')
    (hT : ∀ c ∈ T, isLineBreak c = true → c = '\r' ∨ c = '\n') :
    ∃ newContent,
      replace_block_source orig s e T =
        .ok (newContent, e - s + 1, (pyLines T).length) ∧
      splitK newContent =
        (splitK orig).take (s - 1) ++
        (pyLines T).map (fun l => l ++ lineEnding orig) ++
        (splitK orig).drop e := by
  have h1 : ¬(s < 1 ∨ e < 1 ∨ s > e) := by omega
  have h2 : ¬(e > (splitK orig).length) := by omega
  have hval : replace_block_source orig s e T =
      .ok ((((splitK orig).take (s - 1) ++
        (pyLines T).map (fun l => l ++ lineEnding orig) ++
        (splitK orig).drop e)).flatten, e - s + 1,
        ((pyLines T).map (fun l => l ++ lineEnding orig)).length) := by
    unfold replace_block_source
    rw [if_neg h1, if_neg h2]
    simp only [new_lines_eq T (lineEnding orig) hT]
  rw [List.length_map] at hval
  refine ⟨_, hval, ?_⟩
  -- properties of the three spliced segments
  have hPterm : ∀ l ∈ (splitK orig).take (s - 1),
      TermLine l ∧ l.getLast? ≠ some '\r' := by
    intro l hl
    refine ⟨?_, hnoCR l (List.take_subset _ _ hl)⟩
    apply splitK_dropLast_term orig
    have heq : (splitK orig).take (s - 1) =
        ((splitK orig).dropLast).take (s - 1) := by
      rw [List.dropLast_eq_take, List.take_take]
      congr 1
      omega
    exact List.take_subset _ _ (heq ▸ hl)
  have hMterm : ∀ m ∈ (pyLines T).map (fun l => l ++ lineEnding orig),
      TermLine m ∧ m.getLast? ≠ some '\r' := by
    intro m hm
    rw [List.mem_map] at hm
    obtain ⟨content, hcm, rfl⟩ := hm
    unfold pyLines at hcm
    rw [List.mem_map] at hcm
    obtain ⟨l0, hl0, rfl⟩ := hcm
    have hbf : ∀ c ∈ stripEnd l0, isLineBreak c = false :=
      stripEnd_splitK_breakfree T l0 hl0
    rcases lineEnding_cases orig with hle | hle <;> rw [hle]
    · exact ⟨⟨stripEnd l0, ['\n'], rfl, hbf,
        Or.inr ⟨'\n', rfl, isLineBreak_lf⟩⟩,
        by rw [List.getLast?_concat]; simp⟩
    · refine ⟨⟨stripEnd l0, ['\r', '\n'], rfl, hbf, Or.inl rfl⟩, ?_⟩
      rw [show stripEnd l0 ++ ['\r', '\n'] =
        (stripEnd l0 ++ ['\r']) ++ ['\n'] by simp, List.getLast?_concat]
      simp
  have hSall : ∀ l ∈ (splitK orig).drop e,
      (TermLine l ∨ ContentLine l) ∧ l.getLast? ≠ some '\r' := by
    intro l hl
    exact ⟨splitK_line_structure orig l (List.drop_subset _ _ hl),
      hnoCR l (List.drop_subset _ _ hl)⟩
  have hSdrop : ∀ l ∈ ((splitK orig).drop e).dropLast, TermLine l := by
    intro l hl
    apply splitK_dropLast_term orig
    have heq : ((splitK orig).drop e).dropLast =
        ((splitK orig).dropLast).drop e := by
      rw [List.dropLast_eq_take, List.dropLast_eq_take, List.drop_take,
        List.length_drop]
      congr 1
      omega
    exact List.drop_subset _ _ (heq ▸ hl)
  rw [List.flatten_append, List.flatten_append, List.append_assoc,
    splitK_flatten_termlines _ _ hPterm,
    splitK_flatten_termlines _ _ hMterm,
    splitK_flatten_all _ hSall hSdrop, ← List.append_assoc]

/-- Witness for C5 (amended) at a concrete edit: replacing line 2 of
`"l1\nl2\nl3\n"` with `"new line\r\nsecond"` yields
`"l1\nnew line\nsecond\nl3\n"` — `T`'s CRLF ending is re-emitted as the
file's dominant LF. -/
theorem round_trip_edit_witness :
    replace_block_source "l1\nl2\nl3\n".data 2 2 "new line\r\nsecond".data =
      .ok ("l1\nnew line\nsecond\nl3\n".data, 1, 2) ∧
    splitK "l1\nnew line\nsecond\nl3\n".data =
      (splitK "l1\nl2\nl3\n".data).take 1 ++
      (pyLines "new line\r\nsecond".data).map
        (fun l => l ++ lineEnding "l1\nl2\nl3\n".data) ++
      (splitK "l1\nl2\nl3\n".data).drop 2 := by
  have hcomp : replace_block_source "l1\nl2\nl3\n".data 2 2
      "new line\r\nsecond".data =
      .ok ("l1\nnew line\nsecond\nl3\n".data, 1, 2) := rfl
  obtain ⟨nc, hok, hsplit⟩ := round_trip_edit "l1\nl2\nl3\n".data 2 2
    "new line\r\nsecond".data (by decide) (by decide) (by decide)
    (by decide) (by decide)
  have hnc : nc = "l1\nnew line\nsecond\nl3\n".data := by
    rw [hcomp] at hok
    injection hok with h
    injection h with h1 h2
    exact h1.symm
  exact ⟨hcomp, by rw [← hnc]; exact hsplit⟩

/-! ### CSRF rejection (C4) -/

/-- C4.  For every request to a path under `/api/` (GET or POST) whose
`X-Codedocent-Token` header is missing or differs from the session CSRF
token, the handler responds 403 with an error message mentioning CSRF,
before any endpoint logic runs, and leaves the node lookup, the files, and
the cache untouched.  (The only thing that runs earlier is `_touch`, which
records the request time for the idle watcher; it touches none of those.
A missing header reads as `""`, which differs from the real session token
because `secrets.token_urlsafe(32)` is never empty.) -/
theorem csrf_rejection (csrf : String) (st : ServerState) (m : Method)
    (req : Request) (hapi : pyStartsWith req.path "/api/" = true)
    (htok : (req.token).getD "" ≠ csrf) :
    (handleRequest csrf st m req).1.status = 403 ∧
    (handleRequest csrf st m req).1.body =
      .obj [("error", .str "Invalid or missing CSRF token")] ∧
    strContains "CSRF" "Invalid or missing CSRF token" = true ∧
    (handleRequest csrf st m req).2.lookup = st.lookup ∧
    (handleRequest csrf st m req).2.files = st.files ∧
    (handleRequest csrf st m req).2.cache = st.cache := by
  have hkey : handleRequest csrf st m req =
      (⟨403, .obj [("error", .str "Invalid or missing CSRF token")]⟩, st) := by
    cases m with
    | GET =>
      have hroot : req.path ≠ "/" := by
        intro h
        rw [h] at hapi
        exact absurd hapi (by decide)
      unfold handleRequest do_GET
      rw [if_neg hroot, if_pos hapi, if_pos htok]
    | POST =>
      unfold handleRequest do_POST
      rw [if_pos htok]
  rw [hkey]
  exact ⟨rfl, rfl, by decide, rfl, rfl, rfl⟩

/-- Witness for C4 at a concrete request: `GET /api/tree` with no token
against a non-empty session token is rejected with 403 and changes no
state. -/
theorem csrf_rejection_witness :
    (pyStartsWith "/api/tree" "/api/" = true) ∧
    ((none : Option String)).getD "" ≠ "sessiontoken" ∧
    (handleRequest "sessiontoken" exServerState .GET
      ⟨"/api/tree", none, .missing, false, none⟩).1.status = 403 ∧
    (handleRequest "sessiontoken" exServerState .GET
      ⟨"/api/tree", none, .missing, false, none⟩).2.cache =
      exServerState.cache := by
  refine ⟨by decide, by decide, ?_, ?_⟩
  · exact (csrf_rejection "sessiontoken" exServerState .GET
      ⟨"/api/tree", none, .missing, false, none⟩ (by decide) (by decide)).1
  · exact (csrf_rejection "sessiontoken" exServerState .GET
      ⟨"/api/tree", none, .missing, false, none⟩ (by decide)
      (by decide)).2.2.2.2.2

/-! ### Replacement size cap (C10) -/

theorem utf8Encode_replicate_a (n : Nat) :
    (utf8Encode (List.replicate n 'a')).length = n := by
  induction n with
  | zero => rfl
  | succ k ih =>
    rw [List.replicate_succ]
    unfold utf8Encode at ih ⊢
    rw [List.map_cons, List.flatten_cons, List.length_append, ih,
      show (utf8Char 'a').length = 1 from rfl]
    omega

/-- C10 counterexample.  The claim as stated fails for a known node id that
names a directory: the directory check precedes the size check, so a
directory-node replace with an over-1MB `source` is rejected with
`"Cannot replace directory blocks"`, not
`"Replacement too large (max 1MB)"`. -/
theorem replace_size_cap_counterexample :
    (utf8Encode exBigSource.data).length > 1000000 ∧
    lookupNode exServerState "dir111" = some exEmptyDir ∧
    _execute_replace exServerState "dir111" exBigBody =
      ((400, errJson "Cannot replace directory blocks"), exServerState) ∧
    (_execute_replace exServerState "dir111" exBigBody).1.2.get "error" ≠
      some (Json.str "Replacement too large (max 1MB)") := by
  refine ⟨?_, rfl, rfl, ?_⟩
  · rw [show exBigSource.data = List.replicate 1000001 'a' from rfl,
      utf8Encode_replicate_a]
    omega
  · rw [show (_execute_replace exServerState "dir111" exBigBody).1.2.get
      "error" = some (Json.str "Cannot replace directory blocks") from rfl]
    intro h
    injection h with h1
    injection h1 with h2
    exact absurd h2 (by decide)

/-- C10 (amended).  For every POST `/api/replace/{id}` reaching
`_execute_replace` with a known id naming a NON-directory node and a
JSON-object body whose `source` is a string over 1,000,000 UTF-8 bytes, the
response is 400 with error `"Replacement too large (max 1MB)"` and the
state — files, node lookup, cache — is returned unchanged.  (A directory
node is rejected earlier with a different error: see the counterexample.
The spec only documents the 10 MB raw-body cap, not this limit.) -/
theorem replace_size_cap (st : ServerState) (nid : String) (body : Json)
    (node : CodeNode) (src : String)
    (hfind : lookupNode st nid = some node)
    (hnotdir : node.node_type ≠ .directory)
    (hsrc : (body.get "source").getD (.str "") = .str src)
    (hbig : (utf8Encode src.data).length > 1000000) :
    _execute_replace st nid body =
      ((400, errJson "Replacement too large (max 1MB)"), st) := by
  unfold _execute_replace
  rw [hfind]
  simp only [hsrc, if_neg hnotdir]
  rw [if_pos hbig]

/-- Witness for C10 (amended) at a concrete request: replacing the function
node `abc123` with 1,000,001 bytes of source is rejected with the 1 MB
error and no state change. -/
theorem replace_size_cap_witness :
    _execute_replace exServerState "abc123" exBigBody =
      ((400, errJson "Replacement too large (max 1MB)"), exServerState) := by
  apply replace_size_cap exServerState "abc123" exBigBody exFnAlpha
    exBigSource rfl (by decide) rfl
  rw [show exBigSource.data = List.replicate 1000001 'a' from rfl,
    utf8Encode_replicate_a]
  omega

end Codedocent
